import Mathlib

/-!
Verification development for the SGA finance platform's weekly ledger engine
(`spreadsheet-merger.ts`, `org-numbering.ts`, `csv-validator.ts`,
`master-generator.ts`, the XLSX parser and the presentation-request types).

The TypeScript sources are shallowly embedded: worksheets become lists of rows
of cells, Excel formula strings become a small inductive `Formula` recording
exactly the cell references the source writes into the formula string, and the
JavaScript string operations used by the sources (toLowerCase, trim, includes,
startsWith, split) are re-implemented over `List Char` so that every definition
evaluates inside the kernel.  Monetary amounts are modelled as `Int` (every
amount exercised by the specification is integral).  JS `Date` values are
embedded post-parsing as (month, day, year) triples.
-/

/-! ## Character-level string utilities (JS string semantics) -/

/-- JS `String.prototype.toLowerCase`, charwise. -/
def strToLower (s : String) : String := String.mk (s.data.map Char.toLower)

/-- Whitespace trimming on a character list (JS `String.prototype.trim`). -/
def trimData (l : List Char) : List Char :=
  ((l.dropWhile Char.isWhitespace).reverse.dropWhile Char.isWhitespace).reverse

/-- JS `String.prototype.trim`. -/
def strTrim (s : String) : String := String.mk (trimData s.data)

/-- Does the second list start with the first one (literal match)? -/
def listStarts : List Char → List Char → Bool
  | [], _ => true
  | _ :: _, [] => false
  | p :: ps, c :: cs => p = c && listStarts ps cs

/-- Substring search on character lists (JS `String.prototype.includes`). -/
def containsSub (pat : List Char) : List Char → Bool
  | [] => listStarts pat []
  | c :: cs => listStarts pat (c :: cs) || containsSub pat cs

/-- JS `s.toLowerCase().includes(pat)` for a lowercase pattern `pat`. -/
def containsLower (s : String) (pat : String) : Bool :=
  containsSub pat.data (s.data.map Char.toLower)

/-- One match position of the regex fragment `w1\s*w2`: the text at this
position starts with `w1`, then optional whitespace, then `w2`. -/
def wordGapAt (w1 w2 : List Char) (l : List Char) : Bool :=
  listStarts w1 l && listStarts w2 ((l.drop w1.length).dropWhile Char.isWhitespace)

/-- Search for `w1\s*w2` anywhere in the list (unanchored regex test). -/
def twoWordContains (w1 w2 : List Char) : List Char → Bool
  | [] => wordGapAt w1 w2 []
  | c :: cs => wordGapAt w1 w2 (c :: cs) || twoWordContains w1 w2 cs

/-- Split a character list on a separator character (JS `String.split`). -/
def splitOnChar (sep : Char) : List Char → List (List Char)
  | [] => [[]]
  | c :: cs =>
    if c = sep then [] :: splitOnChar sep cs
    else
      match splitOnChar sep cs with
      | [] => [[c]]
      | h :: t => (c :: h) :: t

/-- Numeric value of a digit list (used for JS `parseInt` on digit strings). -/
def digitsVal (l : List Char) : Nat :=
  l.foldl (fun a c => a * 10 + (c.toNat - 48)) 0

/-- JS `parseInt` restricted to the non-negative integers the parser feeds it:
reads the leading digit run; a string with no leading digit yields `none`
(`NaN` in the source, which every caller guards to `0`). -/
def parseNatData (l : List Char) : Option Nat :=
  match l.takeWhile Char.isDigit with
  | [] => none
  | ds => some (digitsVal ds)

/-- Zero padding to two digits. -/
def pad2 (n : Nat) : String := if n < 10 then "0" ++ toString n else toString n

/-- Zero padding to four digits. -/
def pad4 (n : Nat) : String :=
  if n < 10 then "000" ++ toString n
  else if n < 100 then "00" ++ toString n
  else if n < 1000 then "0" ++ toString n
  else toString n

/-! ## Data model (`types/budget-request.ts`) -/

/-- Approval statuses from the upstream CSV (`ApprovalStatus`). -/
inductive ApprovalStatus
  | approved
  | pendingApproval
  | denied
deriving DecidableEq, Repr

/-- Finance routes (`FinanceRoute`). -/
inductive FinanceRoute
  | autoApprove
  | budgetReview
  | sundayMeeting
deriving DecidableEq, Repr

/-- Request categories (`RequestType`): AFR is the Pool-Tracked category,
Reallocation the Simple category. -/
inductive RequestType
  | afr
  | reallocation
deriving DecidableEq, Repr

/-- The `BudgetRequest` record.  `submittedOn` is kept as an opaque string. -/
structure BudgetRequest where
  submissionId : String
  organizationName : String
  displayName : Option String
  requestType : RequestType
  amount : Int
  description : String
  approvalStatus : ApprovalStatus
  financeRoute : FinanceRoute
  rawFinanceRoute : Option String
  accountNumber : String
  submittedOn : String
  submitterName : String
  submitterEmail : String
  isPreApproved : Bool
deriving DecidableEq, Repr

/-- Placeholder record used only as a `getD` default in statements. -/
def dummyRequest : BudgetRequest :=
  { submissionId := ""
    organizationName := ""
    displayName := none
    requestType := RequestType.afr
    amount := 0
    description := ""
    approvalStatus := ApprovalStatus.pendingApproval
    financeRoute := FinanceRoute.sundayMeeting
    rawFinanceRoute := none
    accountNumber := ""
    submittedOn := ""
    submitterName := ""
    submitterEmail := ""
    isPreApproved := false }

/-- JS `request.displayName || request.organizationName` (empty string is
falsy), as computed by `requestToRow`/`addAFRRequests`. -/
def effectiveDisplayName (r : BudgetRequest) : String :=
  match r.displayName with
  | some s => if s = "" then r.organizationName else s
  | none => r.organizationName

/-! ## Display-name allocator (`org-numbering.ts`) -/

/-- Grouping key: `request.organizationName.toLowerCase().trim()`
(`groupByOrganization`). -/
def orgKey (r : BudgetRequest) : String := strTrim (strToLower r.organizationName)

/-- Size of the `groupByOrganization` group for key `k` in `rs`. -/
def keyCount (rs : List BudgetRequest) (k : String) : Nat :=
  (rs.filter (fun r => orgKey r = k)).length

/-- Main loop of `applyOrgNumbering`: walks the requests in input order,
keeping the list of keys already seen (this plays the role of the
`orgCounters` map: the counter of key `k` is the number of previous records
with key `k`).  `rs` is the full input list, used for the `needsNumbering`
test (group size greater than one). -/
def applyOrgNumberingGo (rs : List BudgetRequest) :
    List String → List BudgetRequest → List BudgetRequest
  | _, [] => []
  | seenKeys, r :: rest =>
    let k := orgKey r
    if 2 ≤ keyCount rs k then
      let n := (seenKeys.filter (fun k2 => k2 = k)).length + 1
      { r with organizationName := r.organizationName ++ " " ++ toString n } ::
        applyOrgNumberingGo rs (seenKeys ++ [k]) rest
    else
      r :: applyOrgNumberingGo rs (seenKeys ++ [k]) rest

/-- The exported `applyOrgNumbering` (empty-input guard included). -/
def applyOrgNumbering (requests : List BudgetRequest) : List BudgetRequest :=
  if requests.length = 0 then [] else applyOrgNumberingGo requests [] requests

/-- The `!requests` null guard of `applyOrgNumbering`, with the nullable
argument embedded as an `Option`. -/
def applyOrgNumberingOpt : Option (List BudgetRequest) → List BudgetRequest
  | none => []
  | some rs => applyOrgNumbering rs

/-! ## Pre-approval marking (`csv-validator.ts`, `validateCSVForSpreadsheet`) -/

/-- Marking loop of `validateCSVForSpreadsheet` (lines 212-218): a filtered
request that is `Approved` and routed `Auto-Approve` or `Budget Review` gets
`isPreApproved = true`. -/
def markPreApprovedRequests (rs : List BudgetRequest) : List BudgetRequest :=
  rs.map (fun r =>
    if r.approvalStatus = ApprovalStatus.approved ∧
        (r.financeRoute = FinanceRoute.autoApprove ∨
         r.financeRoute = FinanceRoute.budgetReview) then
      { r with isPreApproved := true }
    else r)

/-! ## Worksheet model -/

/-- Reference to a single cell, 1-indexed (column, row); `⟨9, 1⟩` is `I1`. -/
structure CellRef where
  col : Nat
  row : Nat
deriving DecidableEq, Repr

/-- The formula strings written by `spreadsheet-merger.ts`, as structured
data recording exactly the referenced cells:
`amended r` is the string `D{r}-F{r}`,
`finalIf r` is `IF(G{r}="Approved",F{r},0)`,
`sumH a b` is `SUM(H{a}:H{b})`,
`subtract c r` is `{c}-H{r}`. -/
inductive Formula
  | amended (r : Nat)
  | finalIf (r : Nat)
  | sumH (a b : Nat)
  | subtract (c : CellRef) (r : Nat)
deriving DecidableEq, Repr

/-- A spreadsheet cell: empty (null/undefined), text, number, or formula. -/
inductive Cell
  | empty
  | str (s : String)
  | num (n : Int)
  | formula (f : Formula)
deriving DecidableEq, Repr

/-- A worksheet row is its list of cells, leftmost first. -/
abbrev SheetRow := List Cell

/-- A `dataValidation` dropdown constraint attached to one cell. -/
structure SheetValidation where
  row : Nat
  col : Nat
  options : List String
  allowBlank : Bool
deriving DecidableEq, Repr

/-- A worksheet: its name, rows (row `n` is entry `n - 1`), and the list of
data-validation constraints added to cells. -/
structure Worksheet where
  name : String
  rows : List SheetRow
  validations : List SheetValidation
deriving DecidableEq, Repr

/-- Read cell `col` (1-indexed) of a row; out-of-range cells are empty. -/
def rowGetCell (row : SheetRow) (col : Nat) : Cell := row.getD (col - 1) Cell.empty

/-- Read the cell at row `r`, column `c` (both 1-indexed). -/
def wsGetCell (ws : Worksheet) (r c : Nat) : Cell :=
  rowGetCell (ws.rows.getD (r - 1) []) c

/-- ExcelJS `worksheet.addRow`: appends one row at the bottom. -/
def wsAddRow (ws : Worksheet) (cells : SheetRow) : Worksheet :=
  { ws with rows := ws.rows ++ [cells] }

/-- A workbook is its ordered list of worksheets. -/
structure Workbook where
  sheets : List Worksheet
deriving DecidableEq, Repr

/-- Empty worksheet used as a `getD` default. -/
def emptySheet : Worksheet := { name := "", rows := [], validations := [] }

/-! ## Ledger writer (`spreadsheet-merger.ts`) -/

/-- Post-parse embedding of the JS `Date` produced from the meeting-date
string: month, day and full year. -/
structure MDate where
  month : Nat
  day : Nat
  year : Nat
deriving DecidableEq, Repr

/-- The `formatMeetingDateShort` of `date-utils.ts`: `en-US` numeric month
and day with a 2-digit year, e.g. `2/1/26`. -/
def formatMeetingDateShort (d : MDate) : String :=
  toString d.month ++ "/" ++ toString d.day ++ "/" ++ pad2 (d.year % 100)

/-- Header strings of `AFR_COLUMNS` in `spreadsheet-merger.ts`. -/
def afrColumnHeaders : List String :=
  ["Date of Meeting", "", "Organization", "AFR\x27d / Requested Amount",
   "Amended", "After Amendments", "Status", "Final Amount",
   "Remaining Budget", "Name of Org", "Entered in KFS?", "Account Number"]

/-- Header strings of `REALLOCATION_COLUMNS` in `spreadsheet-merger.ts`. -/
def reallocationColumnHeaders : List String :=
  ["Date", "Organization", "Requested Amount", "Account Number"]

/-- Row added by `addAFRColumnHeaders`. -/
def afrHeaderRow : SheetRow := afrColumnHeaders.map Cell.str

/-- Row added by `addReallocationColumnHeaders`. -/
def reallocationHeaderRow : SheetRow := reallocationColumnHeaders.map Cell.str

/-- The `addSectionHeader` helper: a single-cell row holding the title (the
cosmetic merge/styling of the cells is not modelled). -/
def addSectionHeader (ws : Worksheet) (title : String) : Worksheet :=
  wsAddRow ws [Cell.str title]

/-- One data row written by `addAFRRequests` for request `r` at worksheet row
`rowNumber`, with `dateValue` in column A. -/
def afrDataRow (r : BudgetRequest) (rowNumber : Nat) (dateValue : String) : SheetRow :=
  [Cell.str dateValue,
   Cell.str "",
   Cell.str (effectiveDisplayName r),
   Cell.num r.amount,
   Cell.formula (Formula.amended rowNumber),
   Cell.empty,
   Cell.str "",
   Cell.formula (Formula.finalIf rowNumber),
   Cell.empty,
   Cell.str (effectiveDisplayName r),
   Cell.str "",
   Cell.str r.accountNumber]

/-- Loop body of `addAFRRequests`: `i` is the forEach index (the date is only
written on the first row of the section); the row number is the current last
row plus one; the Status cell (column G) receives the
`Approved,Denied` dropdown with blanks allowed. -/
def addAFRRequestsGo (md : Option String) : Worksheet → Nat → List BudgetRequest → Worksheet
  | ws, _, [] => ws
  | ws, i, r :: rest =>
    let rowNumber := ws.rows.length + 1
    let dateValue := if i = 0 then md.getD "" else ""
    let ws1 := wsAddRow ws (afrDataRow r rowNumber dateValue)
    let ws2 := { ws1 with
      validations := ws1.validations ++
        [{ row := rowNumber, col := 7, options := ["Approved", "Denied"], allowBlank := true }] }
    addAFRRequestsGo md ws2 (i + 1) rest

/-- The `addAFRRequests` function: returns the updated worksheet and the
first and last data-row numbers. -/
def addAFRRequests (ws : Worksheet) (requests : List BudgetRequest)
    (md : Option String) : Worksheet × Nat × Nat :=
  let firstDataRow := ws.rows.length + 1
  let ws2 := addAFRRequestsGo md ws 0 requests
  let lastDataRow := if ws2.rows.length = 0 then firstDataRow else ws2.rows.length
  (ws2, firstDataRow, lastDataRow)

/-- The `Weekly Subtotal:` row built by `addWeeklySubtotalRows`: column G is
the label, column H the SUM formula over the section's Final Amount cells. -/
def subtotalRowCells (firstDataRow lastDataRow : Nat) : SheetRow :=
  [Cell.str "", Cell.str "", Cell.str "", Cell.str "", Cell.str "", Cell.str "",
   Cell.str "Weekly Subtotal:", Cell.formula (Formula.sumH firstDataRow lastDataRow),
   Cell.str "", Cell.str "", Cell.str "", Cell.str ""]

/-- The `Remaining Budget:` row built by `addWeeklySubtotalRows`: column G is
the label, column I the chained difference formula `{prev}-H{subtotalRow}`. -/
def remainingRowCells (prev : CellRef) (subtotalRowNumber : Nat) : SheetRow :=
  [Cell.str "", Cell.str "", Cell.str "", Cell.str "", Cell.str "", Cell.str "",
   Cell.str "Remaining Budget:", Cell.str "",
   Cell.formula (Formula.subtract prev subtotalRowNumber),
   Cell.str "", Cell.str "", Cell.str ""]

/-- The `addWeeklySubtotalRows` function: appends the `Weekly Subtotal:` row
and the `Remaining Budget:` row (chained to the previous remaining cell, or
to the initial-budget cell for the first section), and returns the two new
row numbers. -/
def addWeeklySubtotalRows (ws : Worksheet) (firstDataRow lastDataRow : Nat)
    (previousRemainingCell : Option CellRef) (initialBudgetCell : CellRef) :
    Worksheet × Nat × Nat :=
  let subtotalRowNumber := ws.rows.length + 1
  let ws1 := wsAddRow ws (subtotalRowCells firstDataRow lastDataRow)
  let remainingRowNumber := ws1.rows.length + 1
  let ws2 := wsAddRow ws1
    (remainingRowCells (previousRemainingCell.getD initialBudgetCell) subtotalRowNumber)
  (ws2, subtotalRowNumber, remainingRowNumber)

/-- One data row written by `addReallocationRequests` (four columns only). -/
def reallocationDataRow (r : BudgetRequest) (dateValue : String) : SheetRow :=
  [Cell.str dateValue,
   Cell.str (effectiveDisplayName r),
   Cell.num r.amount,
   Cell.str r.accountNumber]

/-- Loop body of `addReallocationRequests`. -/
def addReallocationRequestsGo (md : Option String) :
    Worksheet → Nat → List BudgetRequest → Worksheet
  | ws, _, [] => ws
  | ws, i, r :: rest =>
    let dateValue := if i = 0 then md.getD "" else ""
    addReallocationRequestsGo md (wsAddRow ws (reallocationDataRow r dateValue)) (i + 1) rest

/-- The `addReallocationRequests` function (simple append, no formulas). -/
def addReallocationRequests (ws : Worksheet) (requests : List BudgetRequest)
    (md : Option String) : Worksheet :=
  addReallocationRequestsGo md ws 0 requests

/-- Match condition of `findLastRemainingBudgetCell` on one row: column G
holds a (truthy) string whose lowercasing includes `remaining budget`. -/
def rowMatchesRemaining (row : SheetRow) : Bool :=
  match rowGetCell row 7 with
  | Cell.str s => s ≠ "" && containsLower s "remaining budget"
  | _ => false

/-- Scan loop of `findLastRemainingBudgetCell`: walks rows in order keeping
the reference `I{rowNumber}` of the last matching row. -/
def findLastRemainingGo : Nat → Option CellRef → List SheetRow → Option CellRef
  | _, acc, [] => acc
  | n, acc, row :: rest =>
    findLastRemainingGo (n + 1) (if rowMatchesRemaining row then some ⟨9, n⟩ else acc) rest

/-- The `findLastRemainingBudgetCell` function. -/
def findLastRemainingBudgetCell (ws : Worksheet) : Option CellRef :=
  findLastRemainingGo 1 none ws.rows

/-- Merge options: meeting date (already parsed) and the initial-budget cell
reference (the source default is `I1`). -/
structure MergeOptions where
  meetingDate : Option MDate
  initialBudgetCell : Option CellRef
deriving DecidableEq, Repr

/-- The `hasMasterHeader` test of `mergeSpreadsheet`: cell A2 holds a string
whose lowercasing includes `date`. -/
def hasMasterHeader (ws : Worksheet) : Bool :=
  match wsGetCell ws 2 1 with
  | Cell.str s => containsLower s "date"
  | _ => false

/-- First half of what `mergeSpreadsheet` does to the AFR worksheet when new
AFR requests are present: append a blank separator row if the sheet is
non-empty, append the `Week of ...` section header, and append column headers
unless the master header is already in row 2. -/
def afrSectionPreSheet (ws : Worksheet) (fmtDate : Option String) : Worksheet :=
  let ws1 := if ws.rows.length > 0 then wsAddRow ws [] else ws
  let ws2 := addSectionHeader ws1 ("Week of " ++ fmtDate.getD "Pending")
  if hasMasterHeader ws2 then ws2 else wsAddRow ws2 afrHeaderRow

/-- Everything `mergeSpreadsheet` does to the AFR worksheet when new AFR
requests are present: find the previous remaining-budget cell, build the
section heading rows, append the data rows, then the subtotal and
remaining-budget rows. -/
def appendAFRSection (ws : Worksheet) (newAfrRequests : List BudgetRequest)
    (fmtDate : Option String) (initialBudgetCell : CellRef) : Worksheet :=
  let previousRemainingCell := findLastRemainingBudgetCell ws
  let ws3 := afrSectionPreSheet ws fmtDate
  match addAFRRequests ws3 newAfrRequests fmtDate with
  | (ws4, firstDataRow, lastDataRow) =>
    (addWeeklySubtotalRows ws4 firstDataRow lastDataRow previousRemainingCell initialBudgetCell).1

/-- Index of the first worksheet with the given name (ExcelJS
`workbook.getWorksheet(name)`). -/
def findSheetIdxGo (nm : String) : Nat → List Worksheet → Option Nat
  | _, [] => none
  | n, s :: rest => if s.name = nm then some n else findSheetIdxGo nm (n + 1) rest

/-- Workbook-level sheet lookup by name. -/
def findSheetIdx (wb : Workbook) (nm : String) : Option Nat :=
  findSheetIdxGo nm 0 wb.sheets

/-- Worksheet lookup for the AFR sheet in `mergeSpreadsheet` and the parser:
`AFR Requests`, then `AFR`, then `Sunday Meeting`, then the first sheet. -/
def afrSheetIdx (wb : Workbook) : Option Nat :=
  (findSheetIdx wb "AFR Requests").orElse (fun _ =>
    (findSheetIdx wb "AFR").orElse (fun _ =>
      (findSheetIdx wb "Sunday Meeting").orElse (fun _ =>
        if wb.sheets.isEmpty then none else some 0)))

/-- Worksheet lookup for the Reallocation sheet: `Reallocation Requests`,
then `Reallocation` (no positional fallback). -/
def reallocationSheetIdx (wb : Workbook) : Option Nat :=
  (findSheetIdx wb "Reallocation Requests").orElse (fun _ =>
    findSheetIdx wb "Reallocation")

/-- Fresh AFR worksheet created by `mergeSpreadsheet` when a master is given
but holds no worksheet at all. -/
def createdAFRSheet : Worksheet := { name := "AFR Requests", rows := [], validations := [] }

/-- Fresh Reallocation worksheet (name, then `addReallocationColumnHeaders`)
created by `mergeSpreadsheet` when needed. -/
def createdReallocationSheet : Worksheet :=
  { name := "Reallocation Requests", rows := [reallocationHeaderRow], validations := [] }

/-- The master-present branch of `mergeSpreadsheet`. -/
def mergeIntoMaster (wb : Workbook) (newAfrRequests newReallocationRequests : List BudgetRequest)
    (fmtDate : Option String) (initialBudgetCell : CellRef) : Workbook :=
  let found := afrSheetIdx wb
  let wb1 := match found with
    | some _ => wb
    | none => { sheets := wb.sheets ++ [createdAFRSheet] }
  let afrIdx := match found with
    | some i => i
    | none => wb.sheets.length
  let foundRealloc := reallocationSheetIdx wb1
  let wb2 := match foundRealloc with
    | some _ => wb1
    | none =>
      if newReallocationRequests.length > 0 then
        { sheets := wb1.sheets ++ [createdReallocationSheet] }
      else wb1
  let reallocIdx : Option Nat := match foundRealloc with
    | some j => some j
    | none => if newReallocationRequests.length > 0 then some wb1.sheets.length else none
  let wb3 :=
    if newAfrRequests.length > 0 then
      { sheets := wb2.sheets.set afrIdx
          (appendAFRSection (wb2.sheets.getD afrIdx emptySheet) newAfrRequests fmtDate initialBudgetCell) }
    else wb2
  match reallocIdx with
  | some j =>
    if newReallocationRequests.length > 0 then
      { sheets := wb3.sheets.set j
          (addReallocationRequests (wb3.sheets.getD j emptySheet) newReallocationRequests fmtDate) }
    else wb3
  | none => wb3

/-- Row 2 of a freshly created (no master) AFR sheet: the `Initial Budget`
label row, with the empty column I where the user enters the budget. -/
def initialBudgetRow : SheetRow :=
  [Cell.str "", Cell.str "", Cell.str "Initial Budget", Cell.str "", Cell.str "",
   Cell.str "", Cell.str "", Cell.str "", Cell.empty, Cell.str "", Cell.str "", Cell.str ""]

/-- The no-master branch of `mergeSpreadsheet`. -/
def mergeFresh (newAfrRequests newReallocationRequests : List BudgetRequest)
    (fmtDate : Option String) (initialBudgetCell : CellRef) : Workbook :=
  let afr0 : Worksheet := { name := "AFR", rows := [afrHeaderRow, initialBudgetRow], validations := [] }
  let afr1 :=
    if newAfrRequests.length > 0 then
      let a := wsAddRow afr0 []
      let b := addSectionHeader a ("Week of " ++ fmtDate.getD "Pending")
      let c := wsAddRow b afrHeaderRow
      match addAFRRequests c newAfrRequests fmtDate with
      | (d, firstDataRow, lastDataRow) =>
        (addWeeklySubtotalRows d firstDataRow lastDataRow none initialBudgetCell).1
    else afr0
  if newReallocationRequests.length > 0 then
    { sheets := [afr1, addReallocationRequests createdReallocationSheet newReallocationRequests fmtDate] }
  else
    { sheets := [afr1] }

/-- The exported `mergeSpreadsheet` (formula-writing version): partitions the
requests by type, formats the meeting date, and dispatches on the master. -/
def mergeSpreadsheet (master : Option Workbook) (newRequests : List BudgetRequest)
    (opts : MergeOptions) : Workbook :=
  let initialBudgetCell := opts.initialBudgetCell.getD ⟨9, 1⟩
  let fmtDate := opts.meetingDate.map formatMeetingDateShort
  let newAfrRequests := newRequests.filter (fun r => r.requestType = RequestType.afr)
  let newReallocationRequests := newRequests.filter (fun r => r.requestType = RequestType.reallocation)
  match master with
  | some wb => mergeIntoMaster wb newAfrRequests newReallocationRequests fmtDate initialBudgetCell
  | none => mergeFresh newAfrRequests newReallocationRequests fmtDate initialBudgetCell

/-! ## Master generator (`master-generator.ts`) -/

/-- Options of `generateMasterSpreadsheet`. -/
structure MasterOptions where
  semesterName : String
  startingBudget : Int
deriving DecidableEq, Repr

/-- Header strings of the master AFR sheet (`AFR_COLUMNS` in
`master-generator.ts`; note column B is labelled `Notes` here). -/
def masterAfrColumnHeaders : List String :=
  ["Date of Meeting", "Notes", "Organization", "AFR\x27d", "Amended",
   "After Amendments", "Status", "Final Amount", "Remaining Budget",
   "Name of Org", "Entered in KFS?", "Account Number"]

/-- Header strings of the master Reallocation sheet. -/
def masterReallocationColumnHeaders : List String :=
  ["Date of Meeting", "Notes", "Organization", "Requested Amount",
   "Approved Amount", "Status", "Account Number"]

/-- The `createAFRSheet` worksheet: row 1 is the title row (semester name in
A1, starting budget in I1), row 2 the column headers. -/
def masterAFRSheet (opts : MasterOptions) : Worksheet :=
  { name := "AFR Requests"
    rows :=
      [[Cell.str opts.semesterName, Cell.empty, Cell.empty, Cell.empty, Cell.empty,
        Cell.empty, Cell.empty, Cell.empty, Cell.num opts.startingBudget],
       masterAfrColumnHeaders.map Cell.str]
    validations := [] }

/-- The `createReallocationSheet` worksheet. -/
def masterReallocationSheet (opts : MasterOptions) : Worksheet :=
  { name := "Reallocation Requests"
    rows :=
      [[Cell.str (opts.semesterName ++ " - Reallocations")],
       masterReallocationColumnHeaders.map Cell.str]
    validations := [] }

/-- The `generateMasterSpreadsheet` function. -/
def generateMasterSpreadsheet (opts : MasterOptions) : Workbook :=
  { sheets := [masterAFRSheet opts, masterReallocationSheet opts] }

/-! ## Ledger reader (`xlsx-parser.ts`) -/

/-- Statuses recognised when reading a row back (`'Approved' | 'Denied'`). -/
inductive RowStatus
  | approved
  | denied
deriving DecidableEq, Repr

/-- A `SpreadsheetRow` from `types/presentation-request.ts`. -/
structure SpreadsheetRow where
  organization : String
  requestedAmount : Int
  afterAmendments : Option Int
  status : Option RowStatus
  finalAmount : Int
  notes : String
  accountNumber : String
deriving DecidableEq, Repr

/-- The `getCellString` accessor: empty cells give the empty string, strings
are trimmed, numbers are printed, and a freshly written formula cell (which
has no cached result) gives the empty string. -/
def getCellString (c : Cell) : String :=
  match c with
  | Cell.empty => ""
  | Cell.str s => strTrim s
  | Cell.num n => toString n
  | Cell.formula _ => ""

/-- Strip the characters removed by `replace(/[$,]/g, "")`. -/
def stripDollarComma (l : List Char) : List Char :=
  l.filter (fun c => c ≠ '$' ∧ c ≠ ',')

/-- The `getCellNumber` accessor: numbers are returned, a freshly written
formula cell (no cached result) gives 0, and strings go through
`parseFloat` after stripping `$` and `,` (embedded for the integral amounts
the ledger holds; a string with no leading number gives 0). -/
def getCellNumber (c : Cell) : Int :=
  match c with
  | Cell.num n => n
  | Cell.str s =>
    match parseNatData (stripDollarComma s.data) with
    | some n => Int.ofNat n
    | none => 0
  | _ => 0

/-- Consume a case-insensitive literal word (given lowercase) from the head
of the list, returning the remainder. -/
def matchCIWord (pat : List Char) (l : List Char) : Option (List Char) :=
  match pat, l with
  | [], rest => some rest
  | _ :: _, [] => none
  | p :: ps, c :: cs => if c.toLower = p then matchCIWord ps cs else none

/-- Consume the `\s+` of the week-header regex: at least one whitespace
character, greedily. -/
def wsPlus (l : List Char) : Option (List Char) :=
  match l with
  | [] => none
  | c :: cs => if c.isWhitespace then some (cs.dropWhile Char.isWhitespace) else none

/-- The `WEEK_HEADER_PATTERN` regex
`^Week\s+of\s+(\d{1,2}\/\d{1,2}(?:\/\d{2,4})?)/i` applied to a string:
returns the captured date group.  The greedy/backtracking behaviour of the
digit runs is reproduced: a run of more than two digits in the month or day
position fails the match unless truncation still leaves the following
character correct, and the optional year group takes two to four digits. -/
def extractWeekDateData (l : List Char) : Option (List Char) :=
  match matchCIWord "week".data l with
  | none => none
  | some r1 =>
    match wsPlus r1 with
    | none => none
    | some r2 =>
      match matchCIWord "of".data r2 with
      | none => none
      | some r3 =>
        match wsPlus r3 with
        | none => none
        | some r4 =>
          let d1 := r4.takeWhile Char.isDigit
          let r5 := r4.dropWhile Char.isDigit
          if d1.length = 0 ∨ 2 < d1.length then none
          else
            match r5 with
            | '/' :: r6 =>
              let d2 := r6.takeWhile Char.isDigit
              let r7 := r6.dropWhile Char.isDigit
              if d2.length = 0 then none
              else if 2 < d2.length then some (d1 ++ '/' :: d2.take 2)
              else
                match r7 with
                | '/' :: r8 =>
                  let d3 := r8.takeWhile Char.isDigit
                  if 2 ≤ d3.length then some (d1 ++ '/' :: d2 ++ '/' :: d3.take 4)
                  else some (d1 ++ '/' :: d2)
                | _ => some (d1 ++ '/' :: d2)
            | _ => none

/-- The `extractWeekDate` helper: non-string cells (hence `getCellString`
results that are empty) never match. -/
def extractWeekDate (s : String) : Option String :=
  if s = "" then none
  else (extractWeekDateData s.data).map String.mk

/-- The `SKIP_PATTERNS` test on one cell string: `/weekly\s*subtotal/i`,
`/remaining\s*budget/i`, `/initial\s*budget/i` or `/^total/i`. -/
def matchesSkipPattern (s : String) : Bool :=
  let t := s.data.map Char.toLower
  twoWordContains "weekly".data "subtotal".data t ||
  twoWordContains "remaining".data "budget".data t ||
  twoWordContains "initial".data "budget".data t ||
  listStarts "total".data t

/-- The `shouldSkipRow` helper: tests the raw strings of the first three
cells against the skip patterns (only truthy string cells are tested). -/
def shouldSkipRow (row : SheetRow) : Bool :=
  [1, 2, 3].any (fun col =>
    match rowGetCell row col with
    | Cell.str s => s ≠ "" && matchesSkipPattern s
    | _ => false)

/-- The `parseWeekDateToISO` helper: `M/D` or `M/D/Y` to `YYYY-MM-DD`; a
2-digit year gets 2000 added, a missing year is the ambient current year
(passed explicitly here since the source reads the clock). -/
def parseWeekDateToISO (dateStr : String) (currentYear : Nat) : String :=
  let parts := splitOnChar '/' dateStr.data
  let month := (parseNatData (parts.getD 0 [])).getD 0
  let day := (parseNatData (parts.getD 1 [])).getD 0
  let year :=
    if 2 < parts.length then
      let y := (parseNatData (parts.getD 2 [])).getD 0
      if y < 100 then y + 2000 else y
    else currentYear
  pad4 year ++ "-" ++ pad2 month ++ "-" ++ pad2 day

/-- The `parseAFRRow` function (columns C, D, F, G, H, B, L of the AFR
sheet layout; `afterAmendments || null` maps 0 to `none`). -/
def parseAFRRow (row : SheetRow) : Option SpreadsheetRow :=
  let organization := getCellString (rowGetCell row 3)
  if organization = "" ∨ organization = "Organization" then none
  else
    let requestedAmount := getCellNumber (rowGetCell row 4)
    let afterAmendments := getCellNumber (rowGetCell row 6)
    let statusValue := getCellString (rowGetCell row 7)
    let finalAmount := getCellNumber (rowGetCell row 8)
    let notes := getCellString (rowGetCell row 2)
    let accountNumber := getCellString (rowGetCell row 12)
    let status : Option RowStatus :=
      if strToLower statusValue = "approved" then some RowStatus.approved
      else if strToLower statusValue = "denied" then some RowStatus.denied
      else none
    some
      { organization := organization
        requestedAmount := requestedAmount
        afterAmendments := if afterAmendments = 0 then none else some afterAmendments
        status := status
        finalAmount := finalAmount
        notes := notes
        accountNumber := accountNumber }

/-- The `parseReallocationRow` function (columns C, D, E, F, B, G of the
master Reallocation layout; `finalAmount` is the approved amount when the
status is `Approved`, else 0). -/
def parseReallocationRow (row : SheetRow) : Option SpreadsheetRow :=
  let organization := getCellString (rowGetCell row 3)
  if organization = "" ∨ organization = "Organization" then none
  else
    let requestedAmount := getCellNumber (rowGetCell row 4)
    let approvedAmount := getCellNumber (rowGetCell row 5)
    let statusValue := getCellString (rowGetCell row 6)
    let notes := getCellString (rowGetCell row 2)
    let accountNumber := getCellString (rowGetCell row 7)
    let status : Option RowStatus :=
      if strToLower statusValue = "approved" then some RowStatus.approved
      else if strToLower statusValue = "denied" then some RowStatus.denied
      else none
    some
      { organization := organization
        requestedAmount := requestedAmount
        afterAmendments := if approvedAmount = 0 then none else some approvedAmount
        status := status
        finalAmount := if status = some RowStatus.approved then approvedAmount else 0
        notes := notes
        accountNumber := accountNumber }

/-- Insertion-ordered week map used by `parseWorksheet` (JS `Map`). -/
abbrev WeekMap := List (String × List SpreadsheetRow)

/-- JS `if (!weekMap.has(d)) weekMap.set(d, [])`. -/
def mapInsertEmpty (m : WeekMap) (k : String) : WeekMap :=
  if m.any (fun p => p.1 = k) then m else m ++ [(k, [])]

/-- Push one parsed row onto the list of week `k`. -/
def mapPush (m : WeekMap) (k : String) (v : SpreadsheetRow) : WeekMap :=
  m.map (fun p => if p.1 = k then (p.1, p.2 ++ [v]) else p)

/-- Scan loop of `parseWorksheet`: week headers switch the active week, skip
rows are dropped, rows before the first header are dropped, and the rest are
decoded by the category's row parser. -/
def parseWorksheetGo (isAFR : Bool) :
    Option String → WeekMap → List SheetRow → WeekMap
  | _, m, [] => m
  | cur, m, row :: rest =>
    match extractWeekDate (getCellString (rowGetCell row 1)) with
    | some d => parseWorksheetGo isAFR (some d) (mapInsertEmpty m d) rest
    | none =>
      if shouldSkipRow row then parseWorksheetGo isAFR cur m rest
      else
        match cur with
        | none => parseWorksheetGo isAFR cur m rest
        | some d =>
          match (if isAFR then parseAFRRow row else parseReallocationRow row) with
          | some pr => parseWorksheetGo isAFR (some d) (mapPush m d pr) rest
          | none => parseWorksheetGo isAFR (some d) m rest

/-- The `parseWorksheet` function. -/
def parseWorksheet (ws : Worksheet) (isAFR : Bool) : WeekMap :=
  parseWorksheetGo isAFR none [] ws.rows

/-- A `ParsedWeek`. -/
structure ParsedWeek where
  date : String
  dateISO : String
  afrRequests : List SpreadsheetRow
  reallocationRequests : List SpreadsheetRow
deriving DecidableEq, Repr

/-- The `ParseSpreadsheetResult`. -/
structure ParseSpreadsheetResult where
  weeks : List ParsedWeek
  warnings : List String
  errors : List String
deriving DecidableEq, Repr

/-- Accumulator loop of the JS `Set` construction. -/
def dedupKeysGo (acc : List String) : List String → List String
  | [] => acc
  | k :: rest => dedupKeysGo (if acc.contains k then acc else acc ++ [k]) rest

/-- JS `Set` construction: deduplicate keeping first occurrences. -/
def dedupKeys (l : List String) : List String := dedupKeysGo [] l

/-- Week lookup in a week map (missing weeks give the empty list). -/
def lookupWeek (m : WeekMap) (d : String) : List SpreadsheetRow :=
  match m.find? (fun p => p.1 = d) with
  | some p => p.2
  | none => []

/-- Code-unit lexicographic strict order on character lists: the order
`localeCompare` induces on the ASCII ISO date strings compared here. -/
def lexLt : List Char → List Char → Bool
  | [], [] => false
  | [], _ :: _ => true
  | _ :: _, [] => false
  | a :: as, b :: bs =>
    if a.toNat < b.toNat then true
    else if b.toNat < a.toNat then false
    else lexLt as bs

/-- Stable descending insertion by `dateISO` — the JS
`weeks.sort((a, b) => b.dateISO.localeCompare(a.dateISO))` is a stable sort
with this comparator. -/
def insertWeekDesc (w : ParsedWeek) : List ParsedWeek → List ParsedWeek
  | [] => [w]
  | v :: vs =>
    if lexLt v.dateISO.data w.dateISO.data then w :: v :: vs
    else v :: insertWeekDesc w vs

/-- Stable sort of the weeks, most recent `dateISO` first. -/
def sortWeeksDesc (l : List ParsedWeek) : List ParsedWeek :=
  l.foldl (fun acc w => insertWeekDesc w acc) []

/-- Warning emitted for a week with undecided rows. -/
def statusWarning (d : String) (n : Nat) : String :=
  "Week of " ++ d ++ ": " ++ toString n ++ " request(s) have no status set."

/-- Number of rows of a week with no decision status. -/
def missingStatusCount (w : ParsedWeek) : Nat :=
  ((w.afrRequests ++ w.reallocationRequests).filter (fun r => r.status = none)).length

/-- Warning-collection loop of `parseWeeklySpreadsheet`. -/
def addMissingStatusWarnings (acc : List String) : List ParsedWeek → List String
  | [] => acc
  | w :: rest =>
    addMissingStatusWarnings
      (if 0 < missingStatusCount w then acc ++ [statusWarning w.date (missingStatusCount w)]
       else acc) rest

/-- The error emitted when no week headers are found. -/
def noWeeksError : String :=
  "No weeks found in the spreadsheet. Ensure weeks are marked with \"Week of X\" headers."

/-- The error emitted when the workbook holds no worksheet at all. -/
def noAFRSheetError : String := "Could not find AFR worksheet in the spreadsheet."

/-- The `parseWeeklySpreadsheet` function.  `currentYear` is the ambient
clock year used by `parseWeekDateToISO` for year-less headers. -/
def parseWeeklySpreadsheet (wb : Workbook) (currentYear : Nat) : ParseSpreadsheetResult :=
  match afrSheetIdx wb with
  | none => { weeks := [], warnings := [], errors := [noAFRSheetError] }
  | some ai =>
    let afrWorksheet := wb.sheets.getD ai emptySheet
    let reallocationWorksheet :=
      (reallocationSheetIdx wb).map (fun j => wb.sheets.getD j emptySheet)
    let afrWeeks := parseWorksheet afrWorksheet true
    let reallocationWeeks :=
      match reallocationWorksheet with
      | some ws => parseWorksheet ws false
      | none => []
    let allWeekDates :=
      dedupKeys (afrWeeks.map (fun p => p.1) ++ reallocationWeeks.map (fun p => p.1))
    if allWeekDates.isEmpty then
      { weeks := [], warnings := [], errors := [noWeeksError] }
    else
      let weeks0 : List ParsedWeek := allWeekDates.map (fun d =>
        { date := d
          dateISO := parseWeekDateToISO d currentYear
          afrRequests := lookupWeek afrWeeks d
          reallocationRequests := lookupWeek reallocationWeeks d })
      let weeks := sortWeeksDesc weeks0
      { weeks := weeks, warnings := addMissingStatusWarnings [] weeks, errors := [] }

/-- A `WeekSummary` for the week-selector UI. -/
structure WeekSummary where
  date : String
  dateISO : String
  requestCount : Nat
  approvedCount : Nat
  deniedCount : Nat
  afrCount : Nat
  reallocationCount : Nat
deriving DecidableEq, Repr

/-- The `getWeekSummaries` function. -/
def getWeekSummaries (weeks : List ParsedWeek) : List WeekSummary :=
  weeks.map (fun w =>
    let allRequests := w.afrRequests ++ w.reallocationRequests
    { date := w.date
      dateISO := w.dateISO
      requestCount := allRequests.length
      approvedCount := (allRequests.filter (fun r => r.status = some RowStatus.approved)).length
      deniedCount := (allRequests.filter (fun r => r.status = some RowStatus.denied)).length
      afrCount := w.afrRequests.length
      reallocationCount := w.reallocationRequests.length })

/-! ## Presentation-request derivation (`types/budget-request.ts`) -/

/-- Result of `parseNotesColumn`. -/
structure NotesInfo where
  financeRoute : String
  description : String
deriving DecidableEq, Repr

/-- Case-insensitive literal match: consume `pat` (given lowercase) from the
head of `l`, returning the consumed text as written plus the remainder. -/
def splitCI (pat : List Char) (l : List Char) : Option (List Char × List Char) :=
  match pat, l with
  | [], rest => some ([], rest)
  | _ :: _, [] => none
  | p :: ps, c :: cs =>
    if c.toLower = p then (splitCI ps cs).map (fun q => (c :: q.1, q.2)) else none

/-- The `\s*(.*)$` tail of the notes regex: after the greedy optional
whitespace, the rest must contain no line terminator for `.*$` to reach the
end of the string. -/
def tagBodyOk (rest : List Char) : Bool :=
  (rest.dropWhile Char.isWhitespace).all (fun c => c ≠ '\n' ∧ c ≠ '\r')

/-- Match of `^(Auto-Approve|Budget Review):\s*(.*)$/i` on the notes: returns
the tag as written and the text after the colon. -/
def notesTagMatch (l : List Char) : Option (List Char × List Char) :=
  match splitCI "auto-approve:".data l with
  | some q => if tagBodyOk q.2 then some (q.1.take 12, q.2) else none
  | none =>
    match splitCI "budget review:".data l with
    | some q => if tagBodyOk q.2 then some (q.1.take 13, q.2) else none
    | none => none

/-- The `parseNotesColumn` function. -/
def parseNotesColumn (notes : String) : NotesInfo :=
  if notes = "" then { financeRoute := "Sunday Meeting", description := "" }
  else
    match notesTagMatch notes.data with
    | some q =>
      { financeRoute := String.mk q.1
        description := strTrim (String.mk q.2) }
    | none => { financeRoute := "Sunday Meeting", description := strTrim notes }

/-- A `PresentationRequest`. -/
structure PresentationRequest where
  organizationName : String
  displayName : String
  requestedAmount : Int
  finalAmount : Int
  status : RowStatus
  description : String
  financeRoute : String
  requestType : RequestType
  wasAmended : Bool
  accountNumber : String
deriving DecidableEq, Repr

/-- The `rowToPresentationRequest` function: rows without a status give
`none`; `finalAmount` is the JS `row.finalAmount || row.afterAmendments || 0`
truthiness chain, zeroed for denied rows. -/
def rowToPresentationRequest (row : SpreadsheetRow) (requestType : RequestType) :
    Option PresentationRequest :=
  match row.status with
  | none => none
  | some st =>
    let info := parseNotesColumn row.notes
    let finalAmount :=
      if row.finalAmount ≠ 0 then row.finalAmount
      else match row.afterAmendments with
        | some a => a
        | none => 0
    some
      { organizationName := row.organization
        displayName := row.organization
        requestedAmount := row.requestedAmount
        finalAmount := if st = RowStatus.approved then finalAmount else 0
        status := st
        description := info.description
        financeRoute := info.financeRoute
        requestType := requestType
        wasAmended := finalAmount ≠ row.requestedAmount
        accountNumber := row.accountNumber }

/-- The `getWeekPresentationRequests` function: AFR rows first, then
Reallocation rows, dropping rows without a status. -/
def getWeekPresentationRequests (week : ParsedWeek) : List PresentationRequest :=
  (week.afrRequests.filterMap (fun row => rowToPresentationRequest row RequestType.afr)) ++
  (week.reallocationRequests.filterMap
    (fun row => rowToPresentationRequest row RequestType.reallocation))

/-! ## Formula evaluation (Excel recomputation, used to resolve the chained
remaining-budget formulas) -/

/-- Status text seen by the `IF(G{r}="Approved",...)` formula. -/
def statusCellText (ws : Worksheet) (r : Nat) : String :=
  match wsGetCell ws r 7 with
  | Cell.str s => s
  | _ => ""

/-- Fuel-bounded evaluation of a cell: numbers evaluate to themselves, blank
and text cells to 0, and formulas to their Excel value. -/
def evalCell (ws : Worksheet) : Nat → CellRef → Int
  | 0, _ => 0
  | Nat.succ fuel, ref =>
    match wsGetCell ws ref.row ref.col with
    | Cell.num n => n
    | Cell.formula (Formula.amended r) =>
      evalCell ws fuel ⟨4, r⟩ - evalCell ws fuel ⟨6, r⟩
    | Cell.formula (Formula.finalIf r) =>
      if statusCellText ws r = "Approved" then evalCell ws fuel ⟨6, r⟩ else 0
    | Cell.formula (Formula.sumH a b) =>
      ((List.range (b + 1 - a)).map (fun i => evalCell ws fuel ⟨8, a + i⟩)).sum
    | Cell.formula (Formula.subtract c r) =>
      evalCell ws fuel c - evalCell ws fuel ⟨8, r⟩
    | _ => 0

/-! ## Lemmas about the appended rows and the remaining-budget scan -/

/-- Row numbers (1-indexed from `n`) of the rows matching the
remaining-budget pattern of `findLastRemainingBudgetCell`. -/
def remRowsFrom (n : Nat) : List SheetRow → List Nat
  | [] => []
  | row :: rest =>
    if rowMatchesRemaining row then n :: remRowsFrom (n + 1) rest
    else remRowsFrom (n + 1) rest

/-- Row numbers of the remaining-budget rows of a worksheet; the ledger's
Pool-Tracked sections are in bijection with these rows (each merge that
appends a section appends exactly one of them). -/
def remainingRowNumbers (ws : Worksheet) : List Nat := remRowsFrom 1 ws.rows

lemma remRowsFrom_append (a b : List SheetRow) :
    ∀ n, remRowsFrom n (a ++ b) = remRowsFrom n a ++ remRowsFrom (n + a.length) b := by
  induction a with
  | nil => intro n; simp [remRowsFrom]
  | cons h t ih =>
    intro n
    have harith : n + (h :: t).length = (n + 1) + t.length := by
      simp only [List.length_cons]; omega
    rw [harith]
    by_cases hm : rowMatchesRemaining h
    · rw [List.cons_append]
      simp only [remRowsFrom, hm, if_true]
      rw [ih (n + 1), List.cons_append]
    · rw [List.cons_append]
      simp only [remRowsFrom, hm]
      simp only [Bool.false_eq_true, if_false]
      exact ih (n + 1)

lemma remRowsFrom_eq_nil (a : List SheetRow)
    (h : ∀ row ∈ a, rowMatchesRemaining row = false) : ∀ n, remRowsFrom n a = [] := by
  induction a with
  | nil => intro n; rfl
  | cons hd t ih =>
    intro n
    have h1 : rowMatchesRemaining hd = false := h hd (by simp)
    simp only [remRowsFrom, h1]
    simp only [Bool.false_eq_true, if_false]
    exact ih (fun row hr => h row (List.mem_cons_of_mem _ hr)) (n + 1)

lemma remRowsFrom_mem_bounds (a : List SheetRow) :
    ∀ n m, m ∈ remRowsFrom n a → n ≤ m ∧ m < n + a.length := by
  induction a with
  | nil => intro n m hm; simp [remRowsFrom] at hm
  | cons hd t ih =>
    intro n m hm
    by_cases h1 : rowMatchesRemaining hd
    · simp only [remRowsFrom, h1, if_true, List.mem_cons] at hm
      rcases hm with rfl | hm
      · refine ⟨Nat.le_refl m, ?_⟩
        simp only [List.length_cons]
        omega
      · have := ih (n + 1) m hm
        refine ⟨by omega, ?_⟩
        simp only [List.length_cons]
        omega
    · simp only [remRowsFrom, h1] at hm
      simp only [Bool.false_eq_true, if_false] at hm
      have := ih (n + 1) m hm
      refine ⟨by omega, ?_⟩
      simp only [List.length_cons]
      omega

lemma foldl_lastSome (f : Nat → CellRef) :
    ∀ (l : List Nat) (acc : Option CellRef),
      l.foldl (fun _ m => some (f m)) acc =
        match l.getLast? with
        | some m => some (f m)
        | none => acc := by
  intro l
  induction l with
  | nil => intro acc; rfl
  | cons x xs ih =>
    intro acc
    rw [List.foldl_cons, ih (some (f x))]
    cases xs with
    | nil => rfl
    | cons y ys =>
      rw [List.getLast?_cons_cons]
      cases h : (y :: ys).getLast? with
      | some m => rfl
      | none => simp [List.getLast?] at h

lemma findLastRemainingGo_foldl (l : List SheetRow) :
    ∀ n acc, findLastRemainingGo n acc l =
      (remRowsFrom n l).foldl (fun _ m => some (⟨9, m⟩ : CellRef)) acc := by
  induction l with
  | nil => intro n acc; rfl
  | cons hd t ih =>
    intro n acc
    by_cases h1 : rowMatchesRemaining hd
    · simp only [findLastRemainingGo, remRowsFrom, h1, if_true, List.foldl_cons]
      exact ih (n + 1) (some ⟨9, n⟩)
    · simp only [findLastRemainingGo, remRowsFrom, h1]
      simp only [Bool.false_eq_true, if_false]
      exact ih (n + 1) acc

lemma findLastRemainingBudgetCell_eq (ws : Worksheet) :
    findLastRemainingBudgetCell ws =
      match (remainingRowNumbers ws).getLast? with
      | some m => some ⟨9, m⟩
      | none => none := by
  unfold findLastRemainingBudgetCell remainingRowNumbers
  rw [findLastRemainingGo_foldl ws.rows 1 none, foldl_lastSome (fun m => (⟨9, m⟩ : CellRef))]

/-- Expected rows appended by `addAFRRequestsGo` starting at forEach index
`i` when the sheet has `n` rows. -/
def afrDataExt (md : Option String) : Nat → Nat → List BudgetRequest → List SheetRow
  | _, _, [] => []
  | i, n, r :: rest =>
    afrDataRow r (n + 1) (if i = 0 then md.getD "" else "") :: afrDataExt md (i + 1) (n + 1) rest

/-- Expected validations appended by `addAFRRequestsGo`. -/
def afrValExt : Nat → List BudgetRequest → List SheetValidation
  | _, [] => []
  | n, _ :: rest =>
    { row := n + 1, col := 7, options := ["Approved", "Denied"], allowBlank := true } ::
      afrValExt (n + 1) rest

lemma addAFRRequestsGo_eq (md : Option String) (l : List BudgetRequest) :
    ∀ (ws : Worksheet) (i : Nat),
      addAFRRequestsGo md ws i l =
        { name := ws.name
          rows := ws.rows ++ afrDataExt md i ws.rows.length l
          validations := ws.validations ++ afrValExt ws.rows.length l } := by
  induction l with
  | nil => intro ws i; simp [addAFRRequestsGo, afrDataExt, afrValExt]
  | cons r rest ih =>
    intro ws i
    simp only [addAFRRequestsGo, wsAddRow]
    rw [ih]
    simp [afrDataExt, afrValExt, List.append_assoc]

lemma afrDataExt_length (md : Option String) (l : List BudgetRequest) :
    ∀ i n, (afrDataExt md i n l).length = l.length := by
  induction l with
  | nil => intro i n; rfl
  | cons r rest ih => intro i n; simp [afrDataExt, ih]

lemma afrDataExt_mem (md : Option String) (l : List BudgetRequest) :
    ∀ i n row, row ∈ afrDataExt md i n l → ∃ r rn dv, row = afrDataRow r rn dv := by
  induction l with
  | nil => intro i n row hm; simp [afrDataExt] at hm
  | cons r rest ih =>
    intro i n row hm
    simp only [afrDataExt, List.mem_cons] at hm
    rcases hm with rfl | hm
    · exact ⟨r, n + 1, _, rfl⟩
    · exact ih (i + 1) (n + 1) row hm

lemma afrDataExt_getD (md : Option String) (l : List BudgetRequest) :
    ∀ i n j, j < l.length →
      (afrDataExt md i n l).getD j [] =
        afrDataRow (l.getD j dummyRequest) (n + j + 1) (if i + j = 0 then md.getD "" else "") := by
  induction l with
  | nil => intro i n j hj; simp at hj
  | cons r rest ih =>
    intro i n j hj
    cases j with
    | zero => simp [afrDataExt]
    | succ j' =>
      have hj' : j' < rest.length := by
        simp only [List.length_cons] at hj
        omega
      simp only [afrDataExt, List.getD_cons_succ]
      rw [ih (i + 1) (n + 1) j' hj']
      rw [if_neg (by omega : ¬ i + 1 + j' = 0), if_neg (by omega : ¬ i + (j' + 1) = 0)]
      have harith : n + 1 + j' + 1 = n + (j' + 1) + 1 := by omega
      rw [harith]

lemma afrValExt_mem (l : List BudgetRequest) :
    ∀ n j, j < l.length →
      ({ row := n + j + 1, col := 7, options := ["Approved", "Denied"],
         allowBlank := true } : SheetValidation) ∈ afrValExt n l := by
  induction l with
  | nil => intro n j hj; simp at hj
  | cons r rest ih =>
    intro n j hj
    cases j with
    | zero => simp [afrValExt]
    | succ j' =>
      have hj' : j' < rest.length := by simpa using hj
      have := ih (n + 1) j' hj'
      simp only [afrValExt, List.mem_cons]
      right
      have h : n + 1 + j' + 1 = n + (j' + 1) + 1 := by omega
      rw [h] at this
      exact this

lemma rowMatchesRemaining_afrDataRow (r : BudgetRequest) (rn : Nat) (dv : String) :
    rowMatchesRemaining (afrDataRow r rn dv) = false := by
  simp [rowMatchesRemaining, afrDataRow, rowGetCell]

lemma rowMatchesRemaining_nil : rowMatchesRemaining [] = false := rfl

lemma rowMatchesRemaining_single (c : Cell) : rowMatchesRemaining [c] = false := by
  cases c <;> rfl

lemma rowMatchesRemaining_afrHeaderRow : rowMatchesRemaining afrHeaderRow = false := by decide

lemma rowMatchesRemaining_subtotal (a b : Nat) :
    rowMatchesRemaining (subtotalRowCells a b) = false := by
  simp [rowMatchesRemaining, subtotalRowCells, rowGetCell]
  decide

lemma rowMatchesRemaining_remaining (c : CellRef) (r : Nat) :
    rowMatchesRemaining (remainingRowCells c r) = true := by
  simp [rowMatchesRemaining, remainingRowCells, rowGetCell]
  decide

lemma afrSectionPreSheet_decomp (ws : Worksheet) (fd : Option String) :
    ∃ pre : List SheetRow,
      afrSectionPreSheet ws fd =
        { name := ws.name, rows := ws.rows ++ pre, validations := ws.validations } ∧
      (∀ row ∈ pre, rowMatchesRemaining row = false) ∧
      ([Cell.str ("Week of " ++ fd.getD "Pending")] : SheetRow) ∈ pre ∧
      1 ≤ pre.length := by
  simp only [afrSectionPreSheet]
  by_cases h0 : ws.rows.length > 0
  · rw [if_pos h0]
    by_cases hm : hasMasterHeader
        (addSectionHeader (wsAddRow ws []) ("Week of " ++ fd.getD "Pending"))
    · rw [if_pos hm]
      refine ⟨[[], [Cell.str ("Week of " ++ fd.getD "Pending")]], ?_, ?_, ?_, ?_⟩
      · simp [addSectionHeader, wsAddRow]
      · intro row hr
        simp only [List.mem_cons, List.not_mem_nil, or_false] at hr
        rcases hr with rfl | rfl
        · exact rowMatchesRemaining_nil
        · exact rowMatchesRemaining_single _
      · simp
      · simp
    · rw [if_neg hm]
      refine ⟨[[], [Cell.str ("Week of " ++ fd.getD "Pending")], afrHeaderRow], ?_, ?_, ?_, ?_⟩
      · simp [addSectionHeader, wsAddRow]
      · intro row hr
        simp only [List.mem_cons, List.not_mem_nil, or_false] at hr
        rcases hr with rfl | rfl | rfl
        · exact rowMatchesRemaining_nil
        · exact rowMatchesRemaining_single _
        · exact rowMatchesRemaining_afrHeaderRow
      · simp
      · simp
  · rw [if_neg h0]
    by_cases hm : hasMasterHeader
        (addSectionHeader ws ("Week of " ++ fd.getD "Pending"))
    · rw [if_pos hm]
      refine ⟨[[Cell.str ("Week of " ++ fd.getD "Pending")]], ?_, ?_, ?_, ?_⟩
      · simp [addSectionHeader, wsAddRow]
      · intro row hr
        simp only [List.mem_cons, List.not_mem_nil, or_false] at hr
        rcases hr with rfl
        exact rowMatchesRemaining_single _
      · simp
      · simp
    · rw [if_neg hm]
      refine ⟨[[Cell.str ("Week of " ++ fd.getD "Pending")], afrHeaderRow], ?_, ?_, ?_, ?_⟩
      · simp [addSectionHeader, wsAddRow]
      · intro row hr
        simp only [List.mem_cons, List.not_mem_nil, or_false] at hr
        rcases hr with rfl | rfl
        · exact rowMatchesRemaining_single _
        · exact rowMatchesRemaining_afrHeaderRow
      · simp
      · simp

lemma appendAFRTail_eq (ws3 : Worksheet) (B : List BudgetRequest) (fd : Option String)
    (prev : Option CellRef) (ib : CellRef) (h3 : 1 ≤ ws3.rows.length) :
    (match addAFRRequests ws3 B fd with
     | (ws4, firstDataRow, lastDataRow) =>
       (addWeeklySubtotalRows ws4 firstDataRow lastDataRow prev ib).1) =
    { name := ws3.name
      rows := ws3.rows ++ afrDataExt fd 0 ws3.rows.length B ++
        [subtotalRowCells (ws3.rows.length + 1) (ws3.rows.length + B.length),
         remainingRowCells (prev.getD ib) (ws3.rows.length + B.length + 1)]
      validations := ws3.validations ++ afrValExt ws3.rows.length B } := by
  have hlen : (ws3.rows ++ afrDataExt fd 0 ws3.rows.length B).length =
      ws3.rows.length + B.length := by
    rw [List.length_append, afrDataExt_length]
  have hne : ¬ (ws3.rows ++ afrDataExt fd 0 ws3.rows.length B).length = 0 := by
    rw [hlen]; omega
  have hne2 : ¬ ws3.rows.length + B.length = 0 := by omega
  simp only [addAFRRequests, addAFRRequestsGo_eq, addWeeklySubtotalRows, wsAddRow]
  simp only [hne, if_false, hlen, List.length_append, List.append_assoc]
  simp only [hne2, if_false]
  simp

lemma appendAFRSection_decomp (ws : Worksheet) (B : List BudgetRequest) (fd : Option String)
    (ib : CellRef) :
    ∃ (mid : List SheetRow) (a : Nat),
      (appendAFRSection ws B fd ib).name = ws.name ∧
      (appendAFRSection ws B fd ib).rows =
        ws.rows ++ mid ++
        [subtotalRowCells a (ws.rows.length + mid.length),
         remainingRowCells ((findLastRemainingBudgetCell ws).getD ib)
           (ws.rows.length + mid.length + 1)] ∧
      (∀ row ∈ mid, rowMatchesRemaining row = false) ∧
      ([Cell.str ("Week of " ++ fd.getD "Pending")] : SheetRow) ∈ mid := by
  obtain ⟨pre, hpre, hnm, hmem, hlen1⟩ := afrSectionPreSheet_decomp ws fd
  have h3 : 1 ≤ (afrSectionPreSheet ws fd).rows.length := by
    rw [hpre]; simp only [List.length_append]; omega
  have hbody : appendAFRSection ws B fd ib =
      { name := (afrSectionPreSheet ws fd).name
        rows := (afrSectionPreSheet ws fd).rows ++
          afrDataExt fd 0 (afrSectionPreSheet ws fd).rows.length B ++
          [subtotalRowCells ((afrSectionPreSheet ws fd).rows.length + 1)
             ((afrSectionPreSheet ws fd).rows.length + B.length),
           remainingRowCells ((findLastRemainingBudgetCell ws).getD ib)
             ((afrSectionPreSheet ws fd).rows.length + B.length + 1)]
        validations := (afrSectionPreSheet ws fd).validations ++
          afrValExt (afrSectionPreSheet ws fd).rows.length B } := by
    unfold appendAFRSection
    exact appendAFRTail_eq (afrSectionPreSheet ws fd) B fd
      (findLastRemainingBudgetCell ws) ib h3
  have hrows3 : (afrSectionPreSheet ws fd).rows = ws.rows ++ pre := by rw [hpre]
  have hname3 : (afrSectionPreSheet ws fd).name = ws.name := by rw [hpre]
  refine ⟨pre ++ afrDataExt fd 0 (ws.rows.length + pre.length) B,
    ws.rows.length + pre.length + 1, ?_, ?_, ?_, ?_⟩
  · rw [hbody]; exact hname3
  · rw [hbody]
    simp only [hrows3, List.length_append, afrDataExt_length, List.append_assoc]
    simp [Nat.add_assoc]
  · intro row hr
    rcases List.mem_append.mp hr with hr | hr
    · exact hnm row hr
    · obtain ⟨r, rn, dv, rfl⟩ := afrDataExt_mem fd B 0 (ws.rows.length + pre.length) row hr
      exact rowMatchesRemaining_afrDataRow r rn dv
  · exact List.mem_append_left _ hmem

lemma appendAFRSection_remRows (ws : Worksheet) (B : List BudgetRequest) (fd : Option String)
    (ib : CellRef) :
    remainingRowNumbers (appendAFRSection ws B fd ib) =
      remainingRowNumbers ws ++ [(appendAFRSection ws B fd ib).rows.length] := by
  obtain ⟨mid, a, _, hrows, hnm, _⟩ := appendAFRSection_decomp ws B fd ib
  have hlenfinal : (appendAFRSection ws B fd ib).rows.length =
      ws.rows.length + mid.length + 2 := by
    rw [hrows]
    simp [List.length_append]
    omega
  rw [remainingRowNumbers, hrows]
  rw [remRowsFrom_append, remRowsFrom_append]
  rw [remRowsFrom_eq_nil mid hnm]
  have hsub : rowMatchesRemaining (subtotalRowCells a (ws.rows.length + mid.length)) = false :=
    rowMatchesRemaining_subtotal _ _
  have hrem : rowMatchesRemaining
      (remainingRowCells ((findLastRemainingBudgetCell ws).getD ib)
        (ws.rows.length + mid.length + 1)) = true :=
    rowMatchesRemaining_remaining _ _
  simp only [remRowsFrom, hsub, hrem, if_true]
  simp only [Bool.false_eq_true, if_false, remainingRowNumbers]
  simp only [List.append_nil, List.length_append, List.length_cons, List.length_nil]
  congr 2
  omega

lemma rowGetCell_remaining (c : CellRef) (n : Nat) :
    rowGetCell (remainingRowCells c n) 9 = Cell.formula (Formula.subtract c n) := rfl

lemma rowGetCell_subtotal (a b : Nat) :
    rowGetCell (subtotalRowCells a b) 8 = Cell.formula (Formula.sumH a b) := rfl

lemma appendAFRSection_len (ws : Worksheet) (B : List BudgetRequest) (fd : Option String)
    (ib : CellRef) :
    ws.rows.length + 2 ≤ (appendAFRSection ws B fd ib).rows.length := by
  obtain ⟨mid, a, _, hrows, _, _⟩ := appendAFRSection_decomp ws B fd ib
  rw [hrows]
  simp only [List.length_append, List.length_cons, List.length_nil]
  omega

lemma appendAFRSection_preserve (ws : Worksheet) (B : List BudgetRequest) (fd : Option String)
    (ib : CellRef) (r c : Nat) (h2 : r - 1 < ws.rows.length) :
    wsGetCell (appendAFRSection ws B fd ib) r c = wsGetCell ws r c := by
  obtain ⟨mid, a, _, hrows, _, _⟩ := appendAFRSection_decomp ws B fd ib
  unfold wsGetCell
  rw [hrows]
  rw [List.append_assoc]
  rw [List.getD_append _ _ _ _ h2]

lemma getD_of_lt {α : Type} (l : List α) (d : α) (n : Nat) (h : n < l.length) :
    l.getD n d = l[n] := by
  rw [List.getD_eq_getElem?_getD, List.getElem?_eq_getElem h]
  rfl

lemma appendAFRSection_remCell (ws : Worksheet) (B : List BudgetRequest) (fd : Option String)
    (ib : CellRef) :
    wsGetCell (appendAFRSection ws B fd ib) (appendAFRSection ws B fd ib).rows.length 9 =
      Cell.formula (Formula.subtract ((findLastRemainingBudgetCell ws).getD ib)
        ((appendAFRSection ws B fd ib).rows.length - 1)) := by
  obtain ⟨mid, a, _, hrows, _, _⟩ := appendAFRSection_decomp ws B fd ib
  have hL : (appendAFRSection ws B fd ib).rows.length = (ws.rows ++ mid).length + 2 := by
    rw [hrows]
    simp only [List.length_append, List.length_cons, List.length_nil]
  unfold wsGetCell
  rw [hL, hrows]
  have h1 : (ws.rows ++ mid).length ≤ (ws.rows ++ mid).length + 2 - 1 := by omega
  rw [List.getD_append_right _ _ _ _ h1]
  have h2 : (ws.rows ++ mid).length + 2 - 1 - (ws.rows ++ mid).length = 1 := by omega
  rw [h2]
  have h3 : rowGetCell
      ([subtotalRowCells a (ws.rows.length + mid.length),
        remainingRowCells ((findLastRemainingBudgetCell ws).getD ib)
          (ws.rows.length + mid.length + 1)].getD 1 []) 9 =
      Cell.formula (Formula.subtract ((findLastRemainingBudgetCell ws).getD ib)
        (ws.rows.length + mid.length + 1)) := rowGetCell_remaining _ _
  rw [h3]
  congr 2
  simp only [List.length_append]
  omega

lemma appendAFRSection_subCell (ws : Worksheet) (B : List BudgetRequest) (fd : Option String)
    (ib : CellRef) :
    ∃ a, wsGetCell (appendAFRSection ws B fd ib)
        ((appendAFRSection ws B fd ib).rows.length - 1) 8 =
      Cell.formula (Formula.sumH a ((appendAFRSection ws B fd ib).rows.length - 2)) := by
  obtain ⟨mid, a, _, hrows, _, _⟩ := appendAFRSection_decomp ws B fd ib
  have hL : (appendAFRSection ws B fd ib).rows.length = (ws.rows ++ mid).length + 2 := by
    rw [hrows]
    simp only [List.length_append, List.length_cons, List.length_nil]
  refine ⟨a, ?_⟩
  unfold wsGetCell
  rw [hL, hrows]
  have h1 : (ws.rows ++ mid).length ≤ (ws.rows ++ mid).length + 2 - 1 - 1 := by omega
  rw [List.getD_append_right _ _ _ _ h1]
  have h2 : (ws.rows ++ mid).length + 2 - 1 - 1 - (ws.rows ++ mid).length = 0 := by omega
  rw [h2]
  have h3 : rowGetCell
      ([subtotalRowCells a (ws.rows.length + mid.length),
        remainingRowCells ((findLastRemainingBudgetCell ws).getD ib)
          (ws.rows.length + mid.length + 1)].getD 0 []) 8 =
      Cell.formula (Formula.sumH a (ws.rows.length + mid.length)) := rowGetCell_subtotal _ _
  rw [h3]
  congr 2
  simp only [List.length_append]
  omega

/-! ## The remaining-budget formula chain invariant -/

/-- Chain integrity of a Pool-Tracked worksheet: every remaining-budget row
holds a difference formula whose minuend is the previous section's
remaining-budget cell (the initial-budget cell `ib` for the first section)
and whose subtrahend is this section's subtotal cell — the row right above
it, which holds a SUM formula ending at this section's last data row.  No
remaining-budget cell is ever a literal. -/
def chainOK (ws : Worksheet) (ib : CellRef) : Prop :=
  ∀ i, i < (remainingRowNumbers ws).length →
    (wsGetCell ws ((remainingRowNumbers ws).getD i 0) 9 =
      Cell.formula (Formula.subtract
        (if i = 0 then ib else ⟨9, (remainingRowNumbers ws).getD (i - 1) 0⟩)
        ((remainingRowNumbers ws).getD i 0 - 1)) ∧
     ∃ a, wsGetCell ws ((remainingRowNumbers ws).getD i 0 - 1) 8 =
       Cell.formula (Formula.sumH a ((remainingRowNumbers ws).getD i 0 - 2)))

lemma remainingRowNumbers_mem_bounds (ws : Worksheet) (m : Nat)
    (hm : m ∈ remainingRowNumbers ws) : 1 ≤ m ∧ m ≤ ws.rows.length := by
  have := remRowsFrom_mem_bounds ws.rows 1 m hm
  omega

lemma chainOK_step (ws : Worksheet) (B : List BudgetRequest) (fd : Option String)
    (ib : CellRef) (h : chainOK ws ib) : chainOK (appendAFRSection ws B fd ib) ib := by
  intro i hi
  have hrems := appendAFRSection_remRows ws B fd ib
  set L := (appendAFRSection ws B fd ib).rows.length with hLdef
  have hlen' : (remainingRowNumbers (appendAFRSection ws B fd ib)).length =
      (remainingRowNumbers ws).length + 1 := by
    rw [hrems]; simp
  rw [hlen'] at hi
  by_cases hcase : i < (remainingRowNumbers ws).length
  · -- an old section: everything is preserved
    have hgetD : (remainingRowNumbers (appendAFRSection ws B fd ib)).getD i 0 =
        (remainingRowNumbers ws).getD i 0 := by
      rw [hrems]; exact List.getD_append _ _ _ _ hcase
    have hmem : (remainingRowNumbers ws).getD i 0 ∈ remainingRowNumbers ws := by
      rw [List.getD_eq_getElem?_getD, List.getElem?_eq_getElem hcase]
      exact List.getElem_mem _
    have hbounds := remainingRowNumbers_mem_bounds ws _ hmem
    obtain ⟨hold1, hold2⟩ := h i hcase
    constructor
    · rw [hgetD]
      rw [appendAFRSection_preserve ws B fd ib _ 9 (by omega)]
      rw [hold1]
      by_cases hz : i = 0
      · simp [hz]
      · simp only [hz, if_false]
        have hgetD' : (remainingRowNumbers (appendAFRSection ws B fd ib)).getD (i - 1) 0 =
            (remainingRowNumbers ws).getD (i - 1) 0 := by
          rw [hrems]; exact List.getD_append _ _ _ _ (by omega)
        rw [hgetD']
    · obtain ⟨a, ha⟩ := hold2
      refine ⟨a, ?_⟩
      rw [hgetD]
      rw [appendAFRSection_preserve ws B fd ib _ 8 (by omega)]
      exact ha
  · -- the newly appended section
    have hieq : i = (remainingRowNumbers ws).length := by omega
    have hgetD : (remainingRowNumbers (appendAFRSection ws B fd ib)).getD i 0 = L := by
      rw [hrems, hieq]
      rw [List.getD_append_right _ _ _ _ (Nat.le_refl _)]
      simp
    constructor
    · rw [hgetD]
      have := appendAFRSection_remCell ws B fd ib
      rw [← hLdef] at this
      rw [this]
      congr 2
      by_cases hz : i = 0
      · have hrems0 : remainingRowNumbers ws = [] := by
          have : (remainingRowNumbers ws).length = 0 := by omega
          exact List.eq_nil_of_length_eq_zero this
        rw [findLastRemainingBudgetCell_eq, hrems0]
        simp [hz]
      · simp only [hz, if_false]
        have hpos : 0 < (remainingRowNumbers ws).length := by omega
        have hlast : (remainingRowNumbers ws).getLast? =
            some ((remainingRowNumbers ws).getD ((remainingRowNumbers ws).length - 1) 0) := by
          rw [List.getLast?_eq_getElem?]
          rw [List.getElem?_eq_getElem (by omega)]
          exact congrArg some (getD_of_lt _ _ _ (by omega)).symm
        rw [findLastRemainingBudgetCell_eq, hlast]
        have hgetD' : (remainingRowNumbers (appendAFRSection ws B fd ib)).getD (i - 1) 0 =
            (remainingRowNumbers ws).getD (i - 1) 0 := by
          rw [hrems]; exact List.getD_append _ _ _ _ (by omega)
        rw [hgetD', hieq]
        simp
    · rw [hgetD]
      have := appendAFRSection_subCell ws B fd ib
      rw [← hLdef] at this
      exact this

/-! ## The chain invariant through whole `mergeSpreadsheet` calls -/

lemma findSheetIdxGo_ge (nm : String) : ∀ (l : List Worksheet) (n m : Nat),
    findSheetIdxGo nm n l = some m → n ≤ m := by
  intro l
  induction l with
  | nil => intro n m h; simp [findSheetIdxGo] at h
  | cons s rest ih =>
    intro n m h
    by_cases hs : s.name = nm
    · simp only [findSheetIdxGo, hs, if_true] at h
      cases h
      omega
    · simp only [findSheetIdxGo, hs, if_false] at h
      have := ih (n + 1) m h
      omega

lemma afrSheetIdx_of_head (wb : Workbook) (s0 : Worksheet) (rest : List Worksheet)
    (hsheets : wb.sheets = s0 :: rest) (hs0name : s0.name = "AFR Requests") :
    afrSheetIdx wb = some 0 := by
  unfold afrSheetIdx findSheetIdx
  rw [hsheets]
  simp [findSheetIdxGo, hs0name, Option.orElse]

lemma reallocationSheetIdx_pos (wb : Workbook) (s0 : Worksheet) (rest : List Worksheet)
    (hsheets : wb.sheets = s0 :: rest) (hs0name : s0.name = "AFR Requests") (j : Nat)
    (h : reallocationSheetIdx wb = some j) : 1 ≤ j := by
  unfold reallocationSheetIdx findSheetIdx at h
  rw [hsheets] at h
  have h1 : ¬ s0.name = "Reallocation Requests" := by rw [hs0name]; decide
  have h2 : ¬ s0.name = "Reallocation" := by rw [hs0name]; decide
  simp only [findSheetIdxGo, h1, h2, if_false] at h
  rcases ha : findSheetIdxGo "Reallocation Requests" 1 rest with _ | a
  · rw [ha] at h
    simp only [Option.orElse] at h
    exact findSheetIdxGo_ge _ _ _ _ h
  · rw [ha] at h
    simp only [Option.orElse] at h
    cases h
    exact findSheetIdxGo_ge _ _ _ _ ha

lemma mergeIntoMaster_sheet0 (wb : Workbook) (na nr : List BudgetRequest) (fd : Option String)
    (ib : CellRef) (s0 : Worksheet) (rest : List Worksheet)
    (hsheets : wb.sheets = s0 :: rest) (hs0name : s0.name = "AFR Requests") :
    (mergeIntoMaster wb na nr fd ib).sheets ≠ [] ∧
    (mergeIntoMaster wb na nr fd ib).sheets.getD 0 emptySheet =
      (if 0 < na.length then appendAFRSection s0 na fd ib else s0) := by
  have hafr : afrSheetIdx wb = some 0 := afrSheetIdx_of_head wb s0 rest hsheets hs0name
  unfold mergeIntoMaster
  rw [hafr]
  rcases hre : reallocationSheetIdx wb with _ | j
  · -- no reallocation sheet: one may be created at the end of the list
    by_cases hnr : nr.length > 0
    · simp only [hre, hnr, if_true]
      by_cases hna : na.length > 0
      · simp only [hna, if_true, if_pos (by omega : 0 < na.length)]
        rw [hsheets]
        constructor
        · simp
        · simp [List.getD_append, List.length_append]
      · simp only [hna, if_false, if_neg (by omega : ¬ 0 < na.length)]
        rw [hsheets]
        constructor
        · simp
        · have hlen : ¬ (s0 :: rest).length = 0 := by simp
          simp [List.getD_append]
    · simp only [hre, hnr, if_false]
      by_cases hna : na.length > 0
      · simp only [hna, if_true, if_pos (by omega : 0 < na.length)]
        rw [hsheets]
        constructor
        · simp
        · simp
      · simp only [hna, if_false, if_neg (by omega : ¬ 0 < na.length)]
        rw [hsheets]
        constructor
        · simp
        · simp
  · -- a reallocation sheet exists at index j ≥ 1
    have hj : 1 ≤ j := reallocationSheetIdx_pos wb s0 rest hsheets hs0name j hre
    obtain ⟨j', rfl⟩ : ∃ j', j = j' + 1 := ⟨j - 1, by omega⟩
    simp only [hre]
    by_cases hnr : nr.length > 0
    · simp only [hnr, if_true]
      by_cases hna : na.length > 0
      · simp only [hna, if_true, if_pos (by omega : 0 < na.length)]
        rw [hsheets]
        constructor
        · simp [List.set]
        · simp [List.set]
      · simp only [hna, if_false, if_neg (by omega : ¬ 0 < na.length)]
        rw [hsheets]
        constructor
        · simp [List.set]
        · simp [List.set]
    · simp only [hnr, if_false]
      by_cases hna : na.length > 0
      · simp only [hna, if_true, if_pos (by omega : 0 < na.length)]
        rw [hsheets]
        constructor
        · simp
        · simp
      · simp only [hna, if_false, if_neg (by omega : ¬ 0 < na.length)]
        rw [hsheets]
        constructor
        · simp
        · simp

/-- Invariant carried across merge calls: the workbook has sheets, its first
sheet is the Pool-Tracked (`AFR Requests`) sheet, and that sheet's
remaining-budget chain is intact with respect to the `I1` starting-balance
cell. -/
def wbInv (wb : Workbook) : Prop :=
  wb.sheets ≠ [] ∧ (wb.sheets.getD 0 emptySheet).name = "AFR Requests" ∧
    chainOK (wb.sheets.getD 0 emptySheet) ⟨9, 1⟩

lemma appendAFRSection_name (ws : Worksheet) (B : List BudgetRequest) (fd : Option String)
    (ib : CellRef) : (appendAFRSection ws B fd ib).name = ws.name := by
  obtain ⟨mid, a, hn, _, _, _⟩ := appendAFRSection_decomp ws B fd ib
  exact hn

lemma mergeSpreadsheet_inv (wb : Workbook) (reqs : List BudgetRequest) (dt : Option MDate)
    (h : wbInv wb) :
    wbInv (mergeSpreadsheet (some wb) reqs { meetingDate := dt, initialBudgetCell := none }) := by
  obtain ⟨hne, hname, hchain⟩ := h
  obtain ⟨s0, rest, hsheets⟩ : ∃ s0 rest, wb.sheets = s0 :: rest := by
    cases hs : wb.sheets with
    | nil => exact absurd hs hne
    | cons a l => exact ⟨a, l, rfl⟩
  have hs0 : wb.sheets.getD 0 emptySheet = s0 := by rw [hsheets]; rfl
  rw [hs0] at hname hchain
  -- the merge with these options is exactly this mergeIntoMaster call
  have hcall : mergeSpreadsheet (some wb) reqs { meetingDate := dt, initialBudgetCell := none } =
      mergeIntoMaster wb (reqs.filter (fun r => r.requestType = RequestType.afr))
        (reqs.filter (fun r => r.requestType = RequestType.reallocation))
        (dt.map formatMeetingDateShort) ⟨9, 1⟩ := by
    rfl
  rw [hcall]
  obtain ⟨hne2, hsheet0⟩ := mergeIntoMaster_sheet0 wb
    (reqs.filter (fun r => r.requestType = RequestType.afr))
    (reqs.filter (fun r => r.requestType = RequestType.reallocation))
    (dt.map formatMeetingDateShort) ⟨9, 1⟩ s0 rest hsheets hname
  refine ⟨hne2, ?_, ?_⟩
  · rw [hsheet0]
    by_cases hna : 0 < (reqs.filter (fun r => r.requestType = RequestType.afr)).length
    · rw [if_pos hna, appendAFRSection_name]
      exact hname
    · rw [if_neg hna]
      exact hname
  · rw [hsheet0]
    by_cases hna : 0 < (reqs.filter (fun r => r.requestType = RequestType.afr)).length
    · rw [if_pos hna]
      exact chainOK_step s0 _ _ _ hchain
    · rw [if_neg hna]
      exact hchain

/-- Iterated `mergeSpreadsheet` calls (one call per batch, with its own
meeting date and the default initial-budget cell). -/
def iterMerge (wb : Workbook) : List (List BudgetRequest × Option MDate) → Workbook
  | [] => wb
  | (b, dt) :: batches =>
    iterMerge (mergeSpreadsheet (some wb) b { meetingDate := dt, initialBudgetCell := none })
      batches

lemma iterMerge_inv (batches : List (List BudgetRequest × Option MDate)) :
    ∀ wb, wbInv wb → wbInv (iterMerge wb batches) := by
  induction batches with
  | nil => intro wb h; exact h
  | cons bd batches ih =>
    intro wb h
    obtain ⟨b, dt⟩ := bd
    exact ih _ (mergeSpreadsheet_inv wb b dt h)

lemma masterAFRSheet_remRows (opts : MasterOptions) :
    remainingRowNumbers (masterAFRSheet opts) = [] := by
  unfold remainingRowNumbers masterAFRSheet
  simp only [remRowsFrom]
  have h1 : rowMatchesRemaining
      [Cell.str opts.semesterName, Cell.empty, Cell.empty, Cell.empty, Cell.empty,
       Cell.empty, Cell.empty, Cell.empty, Cell.num opts.startingBudget] = false := by
    simp [rowMatchesRemaining, rowGetCell]
  have h2 : rowMatchesRemaining (masterAfrColumnHeaders.map Cell.str) = false := by decide
  simp [h1, h2, remRowsFrom]

lemma generateMasterSpreadsheet_inv (opts : MasterOptions) :
    wbInv (generateMasterSpreadsheet opts) := by
  refine ⟨by simp [generateMasterSpreadsheet], rfl, ?_⟩
  intro i hi
  have h0 : (generateMasterSpreadsheet opts).sheets.getD 0 emptySheet = masterAFRSheet opts := rfl
  rw [h0, masterAFRSheet_remRows] at hi
  simp at hi

/-! ## Concrete inputs used by the claim theorems -/

/-- Pad-and-set of one cell in a row (ExcelJS `row.getCell(col).value = v`,
which materialises missing cells up to `col`). -/
def setRowCell (row : SheetRow) (col : Nat) (c : Cell) : SheetRow :=
  (row ++ List.replicate (col - row.length) Cell.empty).set (col - 1) c

/-- Reviewer entry during a decision session: After Amendments (column F)
receives the amount and Status (column G) the literal `Approved` on row `r`.
This models the human step assumed by the round-trip scenario (every request
approved with `afterAdjustment = requestedAmount`); the system itself never
fills these cells. -/
def fillDecision (ws : Worksheet) (r : Nat) (amt : Int) : Worksheet :=
  let newRow :=
    setRowCell (setRowCell (ws.rows.getD (r - 1) []) 6 (Cell.num amt)) 7 (Cell.str "Approved")
  { ws with rows := ws.rows.set (r - 1) newRow }

/-- Reviewer entry applied to the first (AFR) sheet of a workbook. -/
def fillDecisionWb (wb : Workbook) (r : Nat) (amt : Int) : Workbook :=
  { sheets := wb.sheets.set 0 (fillDecision (wb.sheets.getD 0 emptySheet) r amt) }

/-- A pending Sunday-Meeting AFR request. -/
def plainAFRRequest (org : String) (amt : Int) (acct : String) : BudgetRequest :=
  { dummyRequest with organizationName := org, amount := amt, accountNumber := acct }

/-- A pending reallocation request. -/
def plainReallocationRequest (org : String) (amt : Int) (acct : String) : BudgetRequest :=
  { dummyRequest with
    organizationName := org
    requestType := RequestType.reallocation
    amount := amt
    accountNumber := acct }

def c2Master : Workbook :=
  generateMasterSpreadsheet { semesterName := "Spring 2026", startingBudget := 1000 }

def c2Wb1 : Workbook :=
  mergeSpreadsheet (some c2Master) [plainAFRRequest "ClubA" 200 "111"]
    { meetingDate := some ⟨2, 1, 2026⟩, initialBudgetCell := none }

def c2Wb2 : Workbook :=
  mergeSpreadsheet (some (fillDecisionWb c2Wb1 5 200)) [plainAFRRequest "ClubB" 150 "222"]
    { meetingDate := some ⟨2, 8, 2026⟩, initialBudgetCell := none }

def c2Wb3 : Workbook :=
  mergeSpreadsheet (some (fillDecisionWb c2Wb2 10 150)) [plainAFRRequest "ClubC" 100 "333"]
    { meetingDate := some ⟨2, 15, 2026⟩, initialBudgetCell := none }

/-- The Pool-Tracked sheet after three merges of batches of 200, 150 and 100,
each followed by the reviewer approving every row at the requested amount. -/
def c2FinalSheet : Worksheet := (fillDecisionWb c2Wb3 15 100).sheets.getD 0 emptySheet

/-- C2.  After any number of merge calls starting from a generated master,
every remaining-balance cell of the Pool-Tracked sheet holds a difference
formula referencing the previous section's remaining-balance cell (the
starting-balance cell `I1` for section 1) and this section's subtotal cell —
never a literal (`chainOK`); and in the concrete three-batch scenario with
starting balance 1000 and approved amounts 200, 150, 100, the three
remaining-balance cells are exactly such formulas and resolve by formula
evaluation to 800, 650 and 550. -/
theorem C2_remaining_chain :
    (∀ (opts : MasterOptions) (batches : List (List BudgetRequest × Option MDate)),
        chainOK ((iterMerge (generateMasterSpreadsheet opts) batches).sheets.getD 0 emptySheet)
          ⟨9, 1⟩) ∧
    remainingRowNumbers c2FinalSheet = [7, 12, 17] ∧
    wsGetCell c2FinalSheet 7 9 = Cell.formula (Formula.subtract ⟨9, 1⟩ 6) ∧
    wsGetCell c2FinalSheet 12 9 = Cell.formula (Formula.subtract ⟨9, 7⟩ 11) ∧
    wsGetCell c2FinalSheet 17 9 = Cell.formula (Formula.subtract ⟨9, 12⟩ 16) ∧
    evalCell c2FinalSheet 10 ⟨9, 7⟩ = 800 ∧
    evalCell c2FinalSheet 10 ⟨9, 12⟩ = 650 ∧
    evalCell c2FinalSheet 10 ⟨9, 17⟩ = 550 := by
  refine ⟨?_, by decide, by decide, by decide, by decide, by decide, by decide, by decide⟩
  intro opts batches
  exact (iterMerge_inv batches _ (generateMasterSpreadsheet_inv opts)).2.2

/-- A pre-approved (Auto-Approve route) AFR request for 75 with description
`Snacks` — the failing input of C1. -/
def preApprovedSnacks : BudgetRequest :=
  { dummyRequest with
    organizationName := "ClubP"
    amount := 75
    approvalStatus := ApprovalStatus.approved
    financeRoute := FinanceRoute.autoApprove
    description := "Snacks"
    accountNumber := "555" }

/-- The C1 batch after the validator's pre-approval marking. -/
def c1Marked : List BudgetRequest := markPreApprovedRequests [preApprovedSnacks]

/-- The C1 batch merged into a fresh workbook. -/
def c1Merged : Workbook :=
  mergeSpreadsheet none c1Marked { meetingDate := some ⟨2, 1, 2026⟩, initialBudgetCell := none }

/-- The single data row written for the pre-approved record (sheet row 6). -/
def c1DataRow : SheetRow := (c1Merged.sheets.getD 0 emptySheet).rows.getD 5 []

/-- C1 (code behaviour at the failing input).  The validator marks the
record `isPreApproved`, but the row the merge writes for it has the Status
cell blank (not the literal `Approved`), the Final Amount cell a formula
(not the literal 75), the After Amendments cell empty (not the literal 75),
and the Notes cell blank (not `Auto-Approve: Snacks`): `addAFRRequests`
never consults `isPreApproved`, contradicting the claim (and the validator's
own warning that such requests are added with the status pre-filled). -/
theorem C1_code_behavior :
    (c1Marked.getD 0 dummyRequest).isPreApproved = true ∧
    rowGetCell c1DataRow 3 = Cell.str "ClubP" ∧
    rowGetCell c1DataRow 4 = Cell.num 75 ∧
    rowGetCell c1DataRow 7 = Cell.str "" ∧
    rowGetCell c1DataRow 8 = Cell.formula (Formula.finalIf 6) ∧
    rowGetCell c1DataRow 6 = Cell.empty ∧
    rowGetCell c1DataRow 2 = Cell.str "" := by decide

/-- The C4 failing input: a batch of one Simple-category (Reallocation)
record merged into a fresh workbook with meeting date 2/1/26. -/
def c4Merged : Workbook :=
  mergeSpreadsheet none [plainReallocationRequest "ClubR" 50 "444"]
    { meetingDate := some ⟨2, 1, 2026⟩, initialBudgetCell := none }

/-- C4 (code behaviour at the failing input).  Parsing the document produced
by merging a batch of N = 1 Reallocation records returns no `WeekSummary` at
all: the reallocation writer emits no `Week of X` section header (and its
four-column rows do not match the reader's column layout), so the parse
fails with the no-weeks error instead of reporting `requestCount = 1`. -/
theorem C4_code_behavior :
    parseWeeklySpreadsheet c4Merged 2026 =
      { weeks := [], warnings := [], errors := [noWeeksError] } ∧
    getWeekSummaries (parseWeeklySpreadsheet c4Merged 2026).weeks = [] ∧
    ((c4Merged.sheets.getD 1 emptySheet).rows.getD 1 []).length = 4 := by decide

/-! ## Lemmas about the display-name allocator -/

lemma applyOrgNumberingGo_spec (rs : List BudgetRequest) :
    ∀ (l : List BudgetRequest) (seenKeys : List String),
      (applyOrgNumberingGo rs seenKeys l).length = l.length ∧
      ∀ i, i < l.length →
        (applyOrgNumberingGo rs seenKeys l).getD i dummyRequest =
          (if 2 ≤ keyCount rs (orgKey (l.getD i dummyRequest)) then
            { l.getD i dummyRequest with
              organizationName := (l.getD i dummyRequest).organizationName ++ " " ++
                toString (((seenKeys ++ (l.take i).map orgKey).filter
                  (fun k2 => k2 = orgKey (l.getD i dummyRequest))).length + 1) }
          else l.getD i dummyRequest) := by
  intro l
  induction l with
  | nil =>
    intro seenKeys
    exact ⟨rfl, fun i hi => absurd hi (by simp)⟩
  | cons r rest ih =>
    intro seenKeys
    constructor
    · by_cases hc : 2 ≤ keyCount rs (orgKey r)
      · simp only [applyOrgNumberingGo, hc, if_true, List.length_cons]
        rw [(ih (seenKeys ++ [orgKey r])).1]
      · simp only [applyOrgNumberingGo, hc, if_false, List.length_cons]
        rw [(ih (seenKeys ++ [orgKey r])).1]
    · intro i hi
      cases i with
      | zero =>
        by_cases hc : 2 ≤ keyCount rs (orgKey r)
        · simp [applyOrgNumberingGo, hc]
        · simp [applyOrgNumberingGo, hc]
      | succ i' =>
        have hi' : i' < rest.length := by
          simp only [List.length_cons] at hi
          omega
        have hassoc : seenKeys ++ ((r :: rest).take (i' + 1)).map orgKey =
            (seenKeys ++ [orgKey r]) ++ (rest.take i').map orgKey := by
          simp [List.take_succ_cons, List.append_assoc]
        by_cases hc : 2 ≤ keyCount rs (orgKey r)
        · simp only [applyOrgNumberingGo, hc, if_true, List.getD_cons_succ]
          rw [(ih (seenKeys ++ [orgKey r])).2 i' hi', hassoc]
        · simp only [applyOrgNumberingGo, hc, if_false, List.getD_cons_succ]
          rw [(ih (seenKeys ++ [orgKey r])).2 i' hi', hassoc]

lemma applyOrgNumbering_spec (rs : List BudgetRequest) (i : Nat) (hi : i < rs.length) :
    (applyOrgNumbering rs).length = rs.length ∧
    (applyOrgNumbering rs).getD i dummyRequest =
      (if 2 ≤ keyCount rs (orgKey (rs.getD i dummyRequest)) then
        { rs.getD i dummyRequest with
          organizationName := (rs.getD i dummyRequest).organizationName ++ " " ++
            toString (((rs.take i).filter
              (fun r => orgKey r = orgKey (rs.getD i dummyRequest))).length + 1) }
      else rs.getD i dummyRequest) := by
  have hne : ¬ rs.length = 0 := by omega
  unfold applyOrgNumbering
  rw [if_neg hne]
  obtain ⟨hlen, hget⟩ := applyOrgNumberingGo_spec rs rs []
  refine ⟨hlen, ?_⟩
  rw [hget i hi]
  have hfm : (([] ++ (rs.take i).map orgKey).filter
        (fun k2 => k2 = orgKey (rs.getD i dummyRequest))).length =
      ((rs.take i).filter (fun r => orgKey r = orgKey (rs.getD i dummyRequest))).length := by
    rw [List.nil_append, List.filter_map]
    rw [List.length_map]
    rfl
  rw [hfm]

lemma applyOrgNumbering_length (rs : List BudgetRequest) :
    (applyOrgNumbering rs).length = rs.length := by
  cases rs with
  | nil => rfl
  | cons r rest =>
    exact (applyOrgNumbering_spec (r :: rest) 0 (by simp)).1

/-- Request with only an organization name (the allocator reads nothing
else). -/
def acmeRequest (org : String) : BudgetRequest := { dummyRequest with organizationName := org }

/-- The batch of the claim's concrete example: `["Acme", "acme", "Beta"]`. -/
def acmeBatch : List BudgetRequest :=
  [acmeRequest "Acme", acmeRequest "acme", acmeRequest "Beta"]

/-- C5 counterexample: for the batch `["Acme", "acme", "Beta"]` the second
member of the duplicated group receives display name `acme 2` (its own
original casing with the sequence number), not the literal `Acme 2` the
claim states. -/
theorem C5_counterexample :
    effectiveDisplayName ((applyOrgNumbering acmeBatch).getD 1 dummyRequest) = "acme 2" ∧
    ¬ effectiveDisplayName ((applyOrgNumbering acmeBatch).getD 1 dummyRequest) = "Acme 2" := by
  decide

/-- C5 as amended: `applyOrgNumbering` groups records by the
trimmed-lowercase organization name; in a group of two or more, member
`n` (1-based, input order) gets display name `{organizationName} {n}` with
that record's own casing preserved (so `["Acme", "acme", "Beta"]` yields
`"Acme 1"`, `"acme 2"`, `"Beta"`); when every group has one member every
record is returned unchanged, so its display name equals its organization
name. -/
theorem C5_amended_numbering :
    (∀ (rs : List BudgetRequest) (i : Nat), i < rs.length →
      (∀ r ∈ rs, r.displayName = none) →
      (applyOrgNumbering rs).length = rs.length ∧
      effectiveDisplayName ((applyOrgNumbering rs).getD i dummyRequest) =
        (if 2 ≤ keyCount rs (orgKey (rs.getD i dummyRequest)) then
          (rs.getD i dummyRequest).organizationName ++ " " ++
            toString (((rs.take i).filter
              (fun r => orgKey r = orgKey (rs.getD i dummyRequest))).length + 1)
        else (rs.getD i dummyRequest).organizationName)) ∧
    (∀ (rs : List BudgetRequest), (∀ k, keyCount rs k ≤ 1) →
      ∀ i, i < rs.length →
      (applyOrgNumbering rs).getD i dummyRequest = rs.getD i dummyRequest) ∧
    (applyOrgNumbering acmeBatch).map effectiveDisplayName = ["Acme 1", "acme 2", "Beta"] := by
  refine ⟨?_, ?_, by decide⟩
  · intro rs i hi hdn
    obtain ⟨hlen, hget⟩ := applyOrgNumbering_spec rs i hi
    refine ⟨hlen, ?_⟩
    have hmem : rs.getD i dummyRequest ∈ rs := by
      rw [getD_of_lt _ _ _ hi]
      exact List.getElem_mem _
    have hdni : (rs.getD i dummyRequest).displayName = none := hdn _ hmem
    rw [hget]
    rw [List.getD_eq_getElem?_getD] at hdni
    by_cases hc : 2 ≤ keyCount rs (orgKey (rs.getD i dummyRequest))
    · rw [if_pos hc, if_pos hc]
      simp [effectiveDisplayName, hdni]
    · rw [if_neg hc, if_neg hc]
      simp [effectiveDisplayName, hdni]
  · intro rs hk i hi
    obtain ⟨hlen, hget⟩ := applyOrgNumbering_spec rs i hi
    have hc : ¬ 2 ≤ keyCount rs (orgKey (rs.getD i dummyRequest)) := by
      have := hk (orgKey (rs.getD i dummyRequest))
      omega
    rw [hget, if_neg hc]

/-- Witness for C5: the amended theorem applied to the concrete batch at
index 0 gives display name `Acme 1`. -/
theorem C5_amended_numbering_witness :
    effectiveDisplayName ((applyOrgNumbering acmeBatch).getD 0 dummyRequest) = "Acme 1" := by
  have h := C5_amended_numbering.1 acmeBatch 0 (by decide) (by decide)
  rw [h.2]
  decide

/-- C10: `applyOrgNumbering` returns a new list of the same length and
order in which record `i` differs from input record `i` in at most the
`organizationName` field (the embedding is pure, so the input list and its
records are untouched by construction), and a null or empty input yields
the empty list. -/
theorem C10_frame :
    (∀ (rs : List BudgetRequest) (i : Nat), i < rs.length →
      (applyOrgNumbering rs).length = rs.length ∧
      ∃ nm, (applyOrgNumbering rs).getD i dummyRequest =
        { rs.getD i dummyRequest with organizationName := nm }) ∧
    applyOrgNumberingOpt none = [] ∧
    applyOrgNumbering [] = [] := by
  refine ⟨?_, rfl, rfl⟩
  intro rs i hi
  obtain ⟨hlen, hget⟩ := applyOrgNumbering_spec rs i hi
  refine ⟨hlen, ?_⟩
  by_cases hc : 2 ≤ keyCount rs (orgKey (rs.getD i dummyRequest))
  · exact ⟨_, by rw [hget, if_pos hc]⟩
  · refine ⟨(rs.getD i dummyRequest).organizationName, ?_⟩
    rw [hget, if_neg hc]

/-- Witness for C10: applied to the concrete batch at index 2. -/
theorem C10_frame_witness :
    (applyOrgNumbering acmeBatch).length = acmeBatch.length ∧
    ∃ nm, (applyOrgNumbering acmeBatch).getD 2 dummyRequest =
      { acmeBatch.getD 2 dummyRequest with organizationName := nm } :=
  C10_frame.1 acmeBatch 2 (by decide)

/-! ## The shape of freshly written rows (C3) -/

lemma afrDataRow_cells (r : BudgetRequest) (rn : Nat) (dv : String) :
    rowGetCell (afrDataRow r rn dv) 5 = Cell.formula (Formula.amended rn) ∧
    rowGetCell (afrDataRow r rn dv) 6 = Cell.empty ∧
    rowGetCell (afrDataRow r rn dv) 7 = Cell.str "" ∧
    rowGetCell (afrDataRow r rn dv) 8 = Cell.formula (Formula.finalIf rn) :=
  ⟨rfl, rfl, rfl, rfl⟩

/-- The Pool-Tracked half of claim C3, about every data row written by
`addAFRRequests` into any worksheet: the Amended cell (E) is the formula
`D-F`, the After Amendments cell (F) is empty, the Status cell (G) is blank,
the Final Amount cell (H) is the conditional formula
`IF(G="Approved",F,0)`, and the Status cell carries the
`Approved`/`Denied`/blank dropdown constraint. -/
def afrRowShapeOK : Prop :=
  ∀ (ws : Worksheet) (reqs : List BudgetRequest) (md : Option String) (j : Nat),
    j < reqs.length →
    rowGetCell ((addAFRRequests ws reqs md).1.rows.getD (ws.rows.length + j) []) 5 =
      Cell.formula (Formula.amended (ws.rows.length + j + 1)) ∧
    rowGetCell ((addAFRRequests ws reqs md).1.rows.getD (ws.rows.length + j) []) 6 =
      Cell.empty ∧
    rowGetCell ((addAFRRequests ws reqs md).1.rows.getD (ws.rows.length + j) []) 7 =
      Cell.str "" ∧
    rowGetCell ((addAFRRequests ws reqs md).1.rows.getD (ws.rows.length + j) []) 8 =
      Cell.formula (Formula.finalIf (ws.rows.length + j + 1)) ∧
    ({ row := ws.rows.length + j + 1, col := 7, options := ["Approved", "Denied"],
       allowBlank := true } : SheetValidation) ∈ (addAFRRequests ws reqs md).1.validations

/-- Claim C3 exactly as stated: the Pool-Tracked row shape, plus the claim
that a Simple-category row's `finalAmount` equals its `afterAdjustment`
directly, with no conditional on the decision status. -/
def C3ClaimAsStated : Prop :=
  afrRowShapeOK ∧
  ∀ (row : SheetRow) (sr : SpreadsheetRow), parseReallocationRow row = some sr →
    sr.finalAmount = sr.afterAmendments.getD 0

/-- A denied Simple-category row with approved amount 50 in column E. -/
def c3DeniedRow : SheetRow :=
  [Cell.str "", Cell.str "desc", Cell.str "ClubD", Cell.num 40, Cell.num 50,
   Cell.str "Denied", Cell.str "999"]

/-- C3 counterexample: the claim as stated is false — for a denied
Simple-category row with `afterAdjustment = 50`, the code derives
`finalAmount = 0` (the same status conditional as the Pool-Tracked formula),
not 50. -/
theorem C3_counterexample : ¬ C3ClaimAsStated := by
  intro h
  have h50 := h.2 c3DeniedRow
    { organization := "ClubD", requestedAmount := 40, afterAmendments := some 50,
      status := some RowStatus.denied, finalAmount := 0, notes := "desc",
      accountNumber := "999" } (by decide)
  exact absurd h50 (by decide)

/-- C3 as amended: the Pool-Tracked parts hold exactly as claimed, and for
Simple-category rows `finalAmount` is derived with the same conditional as
Pool-Tracked rows — `afterAdjustment` if the status is `Approved`, else 0
(the merger itself writes Simple rows with only four cells and no
finalAmount/afterAdjustment cells; the derivation lives in the reader). -/
theorem C3_row_formulas :
    afrRowShapeOK ∧
    (∀ (row : SheetRow) (sr : SpreadsheetRow), parseReallocationRow row = some sr →
      sr.finalAmount =
        (if sr.status = some RowStatus.approved then sr.afterAmendments.getD 0 else 0)) := by
  constructor
  · intro ws reqs md j hj
    have heq := addAFRRequestsGo_eq md reqs ws 0
    have hrows : (addAFRRequests ws reqs md).1.rows =
        ws.rows ++ afrDataExt md 0 ws.rows.length reqs := by
      unfold addAFRRequests
      rw [heq]
    have hval : (addAFRRequests ws reqs md).1.validations =
        ws.validations ++ afrValExt ws.rows.length reqs := by
      unfold addAFRRequests
      rw [heq]
    have hgd : (addAFRRequests ws reqs md).1.rows.getD (ws.rows.length + j) [] =
        afrDataRow (reqs.getD j dummyRequest) (ws.rows.length + j + 1)
          (if 0 + j = 0 then md.getD "" else "") := by
      rw [hrows, List.getD_append_right _ _ _ _ (by omega)]
      have h1 : ws.rows.length + j - ws.rows.length = j := by omega
      rw [h1]
      exact afrDataExt_getD md reqs 0 ws.rows.length j hj
    rw [hgd]
    obtain ⟨h5, h6, h7, h8⟩ := afrDataRow_cells (reqs.getD j dummyRequest)
      (ws.rows.length + j + 1) (if 0 + j = 0 then md.getD "" else "")
    refine ⟨h5, h6, h7, h8, ?_⟩
    rw [hval]
    exact List.mem_append_right _ (afrValExt_mem reqs ws.rows.length j hj)
  · intro row sr h
    unfold parseReallocationRow at h
    by_cases hg : getCellString (rowGetCell row 3) = "" ∨
        getCellString (rowGetCell row 3) = "Organization"
    · rw [if_pos hg] at h
      exact absurd h (by simp)
    · rw [if_neg hg] at h
      have h2 := Option.some.inj h
      subst h2
      by_cases hst : strToLower (getCellString (rowGetCell row 6)) = "approved"
      · simp only [hst, if_true]
        by_cases ha : getCellNumber (rowGetCell row 5) = 0
        · simp [ha]
        · simp [ha]
      · by_cases hd : strToLower (getCellString (rowGetCell row 6)) = "denied"
        · simp [hst, hd]
        · simp [hst, hd]

/-- Witness for C3: the amended theorem applied to a concrete one-request
batch written into an empty worksheet (row 1) and to the concrete denied
Simple row. -/
theorem C3_row_formulas_witness :
    rowGetCell ((addAFRRequests emptySheet [plainAFRRequest "W" 10 "1"] none).1.rows.getD 0 []) 7 =
      Cell.str "" ∧
    rowGetCell ((addAFRRequests emptySheet [plainAFRRequest "W" 10 "1"] none).1.rows.getD 0 []) 8 =
      Cell.formula (Formula.finalIf 1) := by
  have h := C3_row_formulas.1 emptySheet [plainAFRRequest "W" 10 "1"] none 0 (by decide)
  exact ⟨h.2.2.1, h.2.2.2.1⟩

/-! ## Merge behaviour on structurally unrecognized workbooks (C6) -/

lemma findSheetIdxGo_none (nm : String) : ∀ (l : List Worksheet) (n : Nat),
    (∀ t ∈ l, ¬ t.name = nm) → findSheetIdxGo nm n l = none := by
  intro l
  induction l with
  | nil => intro n _; rfl
  | cons s rest ih =>
    intro n h
    have hs : ¬ s.name = nm := h s (by simp)
    simp only [findSheetIdxGo, hs, if_false]
    exact ih (n + 1) (fun t ht => h t (List.mem_cons_of_mem _ ht))

lemma mergeIntoMaster_sheet0_fallback (wb : Workbook) (na nr : List BudgetRequest)
    (fd : Option String) (ib : CellRef) (s0 : Worksheet) (rest : List Worksheet)
    (hsheets : wb.sheets = s0 :: rest)
    (hunrec : ∀ t ∈ wb.sheets, ¬ t.name = "AFR Requests" ∧ ¬ t.name = "AFR" ∧
      ¬ t.name = "Sunday Meeting" ∧ ¬ t.name = "Reallocation Requests" ∧
      ¬ t.name = "Reallocation")
    (hna : 0 < na.length) :
    (mergeIntoMaster wb na nr fd ib).sheets.getD 0 emptySheet =
      appendAFRSection s0 na fd ib := by
  have hafr : afrSheetIdx wb = some 0 := by
    unfold afrSheetIdx findSheetIdx
    rw [findSheetIdxGo_none _ _ _ (fun t ht => (hunrec t ht).1)]
    rw [findSheetIdxGo_none _ _ _ (fun t ht => (hunrec t ht).2.1)]
    rw [findSheetIdxGo_none _ _ _ (fun t ht => (hunrec t ht).2.2.1)]
    simp only [Option.orElse]
    rw [hsheets]
    simp
  have hre : reallocationSheetIdx wb = none := by
    unfold reallocationSheetIdx findSheetIdx
    rw [findSheetIdxGo_none _ _ _ (fun t ht => (hunrec t ht).2.2.2.1)]
    rw [findSheetIdxGo_none _ _ _ (fun t ht => (hunrec t ht).2.2.2.2)]
    rfl
  have hna' : na.length > 0 := hna
  unfold mergeIntoMaster
  simp only [hafr, hre]
  by_cases hnr : nr.length > 0
  · simp only [hnr, if_true, hna', hsheets]
    simp [List.getD_append]
  · simp only [hnr, if_false, hna', hsheets]
    simp [List.getD_append]

/-- C6 as amended: a merge into a structurally unrecognized existing
document (no sheet named `AFR Requests`, `AFR`, `Sunday Meeting`,
`Reallocation Requests` or `Reallocation`) does not fail: the merger falls
back to the workbook's first worksheet, whatever it is, and silently appends
the new `Week of ...` section (header, data, subtotal and remaining-budget
rows) to it. -/
theorem C6_amended_fallback :
    ∀ (wb : Workbook) (s0 : Worksheet) (rest : List Worksheet)
      (reqs : List BudgetRequest) (opts : MergeOptions),
      wb.sheets = s0 :: rest →
      (∀ t ∈ wb.sheets, ¬ t.name = "AFR Requests" ∧ ¬ t.name = "AFR" ∧
        ¬ t.name = "Sunday Meeting" ∧ ¬ t.name = "Reallocation Requests" ∧
        ¬ t.name = "Reallocation") →
      0 < (reqs.filter (fun r => r.requestType = RequestType.afr)).length →
      ((mergeSpreadsheet (some wb) reqs opts).sheets.getD 0 emptySheet).name = s0.name ∧
      s0.rows.length <
        ((mergeSpreadsheet (some wb) reqs opts).sheets.getD 0 emptySheet).rows.length ∧
      ([Cell.str ("Week of " ++
          ((opts.meetingDate.map formatMeetingDateShort).getD "Pending"))] : SheetRow) ∈
        ((mergeSpreadsheet (some wb) reqs opts).sheets.getD 0 emptySheet).rows := by
  intro wb s0 rest reqs opts hsheets hunrec hna
  have hcall : mergeSpreadsheet (some wb) reqs opts =
      mergeIntoMaster wb (reqs.filter (fun r => r.requestType = RequestType.afr))
        (reqs.filter (fun r => r.requestType = RequestType.reallocation))
        (opts.meetingDate.map formatMeetingDateShort)
        (opts.initialBudgetCell.getD ⟨9, 1⟩) := rfl
  rw [hcall, mergeIntoMaster_sheet0_fallback wb _ _ _ _ s0 rest hsheets hunrec hna]
  obtain ⟨mid, a, hname, hrows, hnm, hmem⟩ :=
    appendAFRSection_decomp s0 (reqs.filter (fun r => r.requestType = RequestType.afr))
      (opts.meetingDate.map formatMeetingDateShort) (opts.initialBudgetCell.getD ⟨9, 1⟩)
  refine ⟨hname, ?_, ?_⟩
  · have := appendAFRSection_len s0 (reqs.filter (fun r => r.requestType = RequestType.afr))
      (opts.meetingDate.map formatMeetingDateShort) (opts.initialBudgetCell.getD ⟨9, 1⟩)
    omega
  · rw [hrows]
    exact List.mem_append_left _ (List.mem_append_right _ hmem)

/-- A workbook whose only sheet has an unrecognizable name. -/
def stuffSheet : Worksheet := { name := "Stuff", rows := [[Cell.str "junk"]], validations := [] }

def stuffWb : Workbook := { sheets := [stuffSheet] }

def c6Merged : Workbook :=
  mergeSpreadsheet (some stuffWb) [plainAFRRequest "ClubA" 200 "111"]
    { meetingDate := none, initialBudgetCell := none }

/-- C6 counterexample: merging one AFR request into the structurally
unrecognized workbook does not fail and does not leave the document alone —
the merge returns a workbook whose (still unrecognized) sheet `Stuff` grew
from 1 row to 7 rows, including a newly created `Week of Pending` section
header: the parallel structure the claim says is never silently created. -/
theorem C6_counterexample :
    (c6Merged.sheets.getD 0 emptySheet).name = "Stuff" ∧
    (c6Merged.sheets.getD 0 emptySheet).rows.getD 2 [] = [Cell.str "Week of Pending"] ∧
    (c6Merged.sheets.getD 0 emptySheet).rows.length = 7 ∧
    stuffSheet.rows.length = 1 := by decide

/-- Witness for C6: the amended theorem applied to the concrete workbook. -/
theorem C6_amended_fallback_witness :
    (c6Merged.sheets.getD 0 emptySheet).name = stuffSheet.name ∧
    stuffSheet.rows.length < (c6Merged.sheets.getD 0 emptySheet).rows.length ∧
    ([Cell.str ("Week of " ++
        ((((none : Option MDate)).map formatMeetingDateShort).getD "Pending"))] : SheetRow) ∈
      (c6Merged.sheets.getD 0 emptySheet).rows :=
  C6_amended_fallback stuffWb stuffSheet [] [plainAFRRequest "ClubA" 200 "111"]
    { meetingDate := none, initialBudgetCell := none } rfl (by decide) (by decide)

/-! ## Parse error and warning reporting (C7) -/

lemma mapInsertEmpty_ne_nil (m : WeekMap) (k : String) : mapInsertEmpty m k ≠ [] := by
  unfold mapInsertEmpty
  by_cases h : m.any (fun p => p.1 = k)
  · rw [if_pos h]
    intro hm
    rw [hm] at h
    simp at h
  · rw [if_neg h]
    simp

lemma mapPush_eq_nil_iff (m : WeekMap) (k : String) (v : SpreadsheetRow) :
    mapPush m k v = [] ↔ m = [] := by
  simp [mapPush]

lemma forall_cons_marker (row : SheetRow) (rest : List SheetRow)
    (hd : extractWeekDate (getCellString (rowGetCell row 1)) = none) :
    (∀ r ∈ row :: rest, extractWeekDate (getCellString (rowGetCell r 1)) = none) ↔
    (∀ r ∈ rest, extractWeekDate (getCellString (rowGetCell r 1)) = none) := by
  constructor
  · intro h r hr
    exact h r (List.mem_cons_of_mem _ hr)
  · intro h r hr
    rcases List.mem_cons.mp hr with rfl | hr
    · exact hd
    · exact h r hr

lemma parseWorksheetGo_nil_iff (isAFR : Bool) :
    ∀ (rows : List SheetRow) (cur : Option String) (m : WeekMap),
      (parseWorksheetGo isAFR cur m rows = [] ↔
        (m = [] ∧ ∀ row ∈ rows, extractWeekDate (getCellString (rowGetCell row 1)) = none)) := by
  intro rows
  induction rows with
  | nil =>
    intro cur m
    simp [parseWorksheetGo]
  | cons row rest ih =>
    intro cur m
    rcases hd : extractWeekDate (getCellString (rowGetCell row 1)) with _ | d
    · simp only [parseWorksheetGo, hd]
      by_cases hs : shouldSkipRow row
      · rw [if_pos hs, ih, forall_cons_marker row rest hd]
      · rw [if_neg hs]
        cases cur with
        | none =>
          rw [ih, forall_cons_marker row rest hd]
        | some d0 =>
          cases hp : (if isAFR then parseAFRRow row else parseReallocationRow row) with
          | some pr =>
            rw [ih, mapPush_eq_nil_iff, forall_cons_marker row rest hd]
          | none =>
            rw [ih, forall_cons_marker row rest hd]
    · simp only [parseWorksheetGo, hd]
      rw [ih]
      constructor
      · rintro ⟨h1, _⟩
        exact absurd h1 (mapInsertEmpty_ne_nil m d)
      · rintro ⟨_, hall⟩
        have h2 := hall row (by simp)
        rw [hd] at h2
        cases h2

lemma dedupKeysGo_ne_nil : ∀ (l : List String) (acc : List String),
    acc ≠ [] → dedupKeysGo acc l ≠ [] := by
  intro l
  induction l with
  | nil => intro acc h; exact h
  | cons k rest ih =>
    intro acc h
    unfold dedupKeysGo
    apply ih
    by_cases hc : acc.contains k
    · rw [if_pos hc]; exact h
    · rw [if_neg hc]; simp

lemma dedupKeys_eq_nil_iff (l : List String) : dedupKeys l = [] ↔ l = [] := by
  cases l with
  | nil => simp [dedupKeys, dedupKeysGo]
  | cons k rest =>
    constructor
    · intro h
      have he : dedupKeys (k :: rest) = dedupKeysGo [k] rest := by
        simp [dedupKeys, dedupKeysGo]
      rw [he] at h
      exact absurd h (dedupKeysGo_ne_nil rest [k] (by simp))
    · intro h
      cases h

/-- The week map obtained from the Reallocation sheet (empty when there is
no such sheet). -/
def reallocWeekMap (wb : Workbook) : WeekMap :=
  match (reallocationSheetIdx wb).map (fun j => wb.sheets.getD j emptySheet) with
  | some ws => parseWorksheet ws false
  | none => []

/-- All distinct week keys seen by `parseWeeklySpreadsheet`. -/
def allKeys (wb : Workbook) (ai : Nat) : List String :=
  dedupKeys ((parseWorksheet (wb.sheets.getD ai emptySheet) true).map (fun p => p.1) ++
    (reallocWeekMap wb).map (fun p => p.1))

lemma reallocWeekMap_nil_iff (wb : Workbook) :
    reallocWeekMap wb = [] ↔
      (∀ j, reallocationSheetIdx wb = some j →
        ∀ row ∈ (wb.sheets.getD j emptySheet).rows,
          extractWeekDate (getCellString (rowGetCell row 1)) = none) := by
  unfold reallocWeekMap
  rcases hre : reallocationSheetIdx wb with _ | j
  · simp
  · simp only [Option.map]
    have hpw : parseWorksheet (wb.sheets.getD j emptySheet) false =
        parseWorksheetGo false none [] (wb.sheets.getD j emptySheet).rows := rfl
    rw [hpw, parseWorksheetGo_nil_iff]
    constructor
    · rintro ⟨_, hcond⟩ j' hj'
      have : j = j' := Option.some.inj hj'
      subst this
      exact hcond
    · intro h
      exact ⟨rfl, h j rfl⟩

lemma parseWeeklySpreadsheet_errors (wb : Workbook) (ai cy : Nat)
    (hai : afrSheetIdx wb = some ai) :
    (parseWeeklySpreadsheet wb cy).errors =
      (if (allKeys wb ai).isEmpty then [noWeeksError] else []) := by
  simp only [parseWeeklySpreadsheet, hai, allKeys, reallocWeekMap]
  rw [apply_ite ParseSpreadsheetResult.errors]

lemma addMissingStatusWarnings_mem : ∀ (weeks : List ParsedWeek) (acc : List String)
    (w : String), w ∈ addMissingStatusWarnings acc weeks →
    w ∈ acc ∨ ∃ d n, w = statusWarning d n := by
  intro weeks
  induction weeks with
  | nil => intro acc w h; exact Or.inl h
  | cons wk rest ih =>
    intro acc w h
    unfold addMissingStatusWarnings at h
    rcases ih _ w h with h2 | h2
    · by_cases hm : 0 < missingStatusCount wk
      · rw [if_pos hm] at h2
        rcases List.mem_append.mp h2 with h3 | h3
        · exact Or.inl h3
        · right
          refine ⟨wk.date, missingStatusCount wk, ?_⟩
          simpa using h3
      · rw [if_neg hm] at h2
        exact Or.inl h2
    · exact Or.inr h2

lemma parseWeeklySpreadsheet_warnings_mem (wb : Workbook) (cy : Nat) (w : String)
    (h : w ∈ (parseWeeklySpreadsheet wb cy).warnings) : ∃ d n, w = statusWarning d n := by
  rcases hai : afrSheetIdx wb with _ | ai
  · simp only [parseWeeklySpreadsheet, hai] at h
    simp at h
  · simp only [parseWeeklySpreadsheet, hai] at h
    split at h
    · simp at h
    · rcases addMissingStatusWarnings_mem _ _ _ h with h2 | h2
      · simp at h2
      · exact h2

/-- A workbook holding only an AFR sheet with one week marker and one
decided data row: the Reallocation sheet is missing, yet parse succeeds
with no warning at all. -/
def c7AFRSheet : Worksheet :=
  { name := "AFR Requests"
    rows :=
      [[Cell.str "Week of 2/1/26"],
       [Cell.empty, Cell.str "", Cell.str "Club", Cell.num 100, Cell.empty, Cell.empty,
        Cell.str "Approved"]]
    validations := [] }

def c7Wb : Workbook := { sheets := [c7AFRSheet] }

/-- **C7** counterexample.  A workbook whose Reallocation sheet cannot be
located, while the AFR sheet is found and yields one section: the claim
says the missing sheet "is reported as a warning in the returned warnings
list", but `parseWeeklySpreadsheet` returns that section with `warnings`
(and `errors`) completely empty — no warning mentions the missing sheet. -/
theorem C7_counterexample :
    reallocationSheetIdx c7Wb = none ∧
    (parseWeeklySpreadsheet c7Wb 2026).weeks.length = 1 ∧
    (parseWeeklySpreadsheet c7Wb 2026).errors = [] ∧
    (parseWeeklySpreadsheet c7Wb 2026).warnings = [] := by
  refine ⟨by decide, by decide, by decide, by decide⟩

/-- **C7** (amended).  Error/warning reporting of `parseWeeklySpreadsheet`:
once an AFR-candidate sheet is located, the parse fails with the
no-weeks-found error exactly when neither the AFR sheet's rows nor the rows
of a located Reallocation sheet contain a recognizable `Week of X` section
marker; and every warning the parser ever returns is a missing-status
warning — in particular a missing Reallocation sheet is silently treated as
empty and never reported as a warning. -/
theorem C7_amended_error_reporting :
    (∀ (wb : Workbook) (ai cy : Nat), afrSheetIdx wb = some ai →
      ((parseWeeklySpreadsheet wb cy).errors = [noWeeksError] ↔
        ((∀ row ∈ (wb.sheets.getD ai emptySheet).rows,
            extractWeekDate (getCellString (rowGetCell row 1)) = none) ∧
         (∀ j, reallocationSheetIdx wb = some j →
            ∀ row ∈ (wb.sheets.getD j emptySheet).rows,
              extractWeekDate (getCellString (rowGetCell row 1)) = none)))) ∧
    (∀ (wb : Workbook) (cy : Nat) (w : String),
      w ∈ (parseWeeklySpreadsheet wb cy).warnings → ∃ d n, w = statusWarning d n) := by
  constructor
  · intro wb ai cy hai
    have hkey : allKeys wb ai = [] ↔
        ((∀ row ∈ (wb.sheets.getD ai emptySheet).rows,
            extractWeekDate (getCellString (rowGetCell row 1)) = none) ∧
         (∀ j, reallocationSheetIdx wb = some j →
            ∀ row ∈ (wb.sheets.getD j emptySheet).rows,
              extractWeekDate (getCellString (rowGetCell row 1)) = none)) := by
      unfold allKeys
      rw [dedupKeys_eq_nil_iff, List.append_eq_nil, List.map_eq_nil_iff, List.map_eq_nil_iff,
        reallocWeekMap_nil_iff]
      have hpw : parseWorksheet (wb.sheets.getD ai emptySheet) true =
          parseWorksheetGo true none [] (wb.sheets.getD ai emptySheet).rows := rfl
      rw [hpw, parseWorksheetGo_nil_iff]
      constructor
      · rintro ⟨⟨_, h1⟩, h2⟩
        exact ⟨h1, h2⟩
      · rintro ⟨h1, h2⟩
        exact ⟨⟨rfl, h1⟩, h2⟩
    rw [parseWeeklySpreadsheet_errors wb ai cy hai]
    by_cases hc : allKeys wb ai = []
    · have hb : (allKeys wb ai).isEmpty = true := by rw [hc]; rfl
      rw [if_pos hb]
      exact iff_of_true rfl (hkey.mp hc)
    · have hb : (allKeys wb ai).isEmpty = false := by
        rcases hx : allKeys wb ai with _ | ⟨a, l⟩
        · exact absurd hx hc
        · rfl
      rw [if_neg (by rw [hb]; exact Bool.false_ne_true)]
      exact iff_of_false (by simp) (fun hr => hc (hkey.mpr hr))
  · intro wb cy w h
    exact parseWeeklySpreadsheet_warnings_mem wb cy w h

/-- A workbook whose only sheet has no week marker at all. -/
def c7wEmptyAFR : Workbook :=
  { sheets := [{ name := "AFR", rows := [[Cell.str "hello"]], validations := [] }] }

theorem C7_amended_error_reporting_witness :
    (parseWeeklySpreadsheet c7wEmptyAFR 2026).errors = [noWeeksError] :=
  (C7_amended_error_reporting.1 c7wEmptyAFR 0 2026 (by decide)).mpr
    ⟨by decide, fun j hj => by
      have hre : reallocationSheetIdx c7wEmptyAFR = none := by decide
      rw [hre] at hj
      cases hj⟩

/-! ## Presentation-row derivation facts (C8) -/

lemma strMk_data (s : String) : String.mk s.data = s := by
  cases s
  rfl

lemma dropWhile_of_trimData (l : List Char) (h : trimData l = l) :
    l.dropWhile Char.isWhitespace = l := by
  have hsplit := List.takeWhile_append_dropWhile (p := Char.isWhitespace) (l := l)
  have hlen : (l.dropWhile Char.isWhitespace).length = l.length := by
    have h1 : (trimData l).length ≤ (l.dropWhile Char.isWhitespace).length := by
      unfold trimData
      rw [List.length_reverse]
      calc ((l.dropWhile Char.isWhitespace).reverse.dropWhile Char.isWhitespace).length
          ≤ (l.dropWhile Char.isWhitespace).reverse.length :=
            (List.dropWhile_sublist _).length_le
        _ = (l.dropWhile Char.isWhitespace).length := List.length_reverse _
    rw [h] at h1
    have h2 : (l.dropWhile Char.isWhitespace).length ≤ l.length :=
      (List.dropWhile_sublist _).length_le
    omega
  have h3 : (l.takeWhile Char.isWhitespace).length = 0 := by
    have h4 := congrArg List.length hsplit
    rw [List.length_append] at h4
    omega
  have h5 : l.takeWhile Char.isWhitespace = [] := List.length_eq_zero.mp h3
  rw [h5] at hsplit
  simpa using hsplit

lemma trimData_cons_ws (c : Char) (l : List Char) (hc : c.isWhitespace = true) :
    trimData (c :: l) = trimData l := by
  unfold trimData
  rw [List.dropWhile_cons, if_pos hc]

lemma splitCI_exact : ∀ (pre post : List Char),
    splitCI (pre.map Char.toLower) (pre ++ post) = some (pre, post) := by
  intro pre
  induction pre with
  | nil => intro post; rfl
  | cons c cs ih =>
    intro post
    simp only [List.map_cons, List.cons_append, splitCI]
    simp [ih]

lemma tagBody_of_trimmed (rest : String)
    (hdrop : rest.data.dropWhile Char.isWhitespace = rest.data)
    (hnl : rest.data.all (fun c => c ≠ '\n' ∧ c ≠ '\r') = true) :
    tagBodyOk (' ' :: rest.data) = true := by
  unfold tagBodyOk
  rw [List.dropWhile_cons, if_pos (by decide : (' ' : Char).isWhitespace = true), hdrop]
  exact hnl

lemma notesTagMatch_auto (rest : String)
    (hdrop : rest.data.dropWhile Char.isWhitespace = rest.data)
    (hnl : rest.data.all (fun c => c ≠ '\n' ∧ c ≠ '\r') = true) :
    notesTagMatch ("Auto-Approve: " ++ rest).data =
      some ("Auto-Approve".data, ' ' :: rest.data) := by
  have hform : ("Auto-Approve: " ++ rest).data =
      "Auto-Approve:".data ++ (' ' :: rest.data) := by
    rw [String.data_append]
    have hAd : ("Auto-Approve: ").data = "Auto-Approve:".data ++ [' '] := by decide
    rw [hAd, List.append_assoc]
    rfl
  have hmap : ("Auto-Approve:".data).map Char.toLower = "auto-approve:".data := by decide
  have hsplit : splitCI "auto-approve:".data ("Auto-Approve: " ++ rest).data =
      some ("Auto-Approve:".data, ' ' :: rest.data) := by
    rw [hform, ← hmap]
    exact splitCI_exact _ _
  have htake : ("Auto-Approve:".data).take 12 = "Auto-Approve".data := by decide
  unfold notesTagMatch
  rw [hsplit]
  simp [tagBody_of_trimmed rest hdrop hnl, htake]

lemma notesTagMatch_budget (rest : String)
    (hdrop : rest.data.dropWhile Char.isWhitespace = rest.data)
    (hnl : rest.data.all (fun c => c ≠ '\n' ∧ c ≠ '\r') = true) :
    notesTagMatch ("Budget Review: " ++ rest).data =
      some ("Budget Review".data, ' ' :: rest.data) := by
  have hform : ("Budget Review: " ++ rest).data =
      "Budget Review:".data ++ (' ' :: rest.data) := by
    rw [String.data_append]
    have hBd : ("Budget Review: ").data = "Budget Review:".data ++ [' '] := by decide
    rw [hBd, List.append_assoc]
    rfl
  have hno : splitCI "auto-approve:".data ("Budget Review: " ++ rest).data = none := by
    rw [hform]
    show splitCI ('a' :: "uto-approve:".data)
      ('B' :: ("udget Review:".data ++ (' ' :: rest.data))) = none
    simp only [splitCI]
    rw [if_neg (by decide : ¬(('B' : Char).toLower = 'a'))]
  have hmap : ("Budget Review:".data).map Char.toLower = "budget review:".data := by decide
  have hsplit : splitCI "budget review:".data ("Budget Review: " ++ rest).data =
      some ("Budget Review:".data, ' ' :: rest.data) := by
    rw [hform, ← hmap]
    exact splitCI_exact _ _
  have htake : ("Budget Review:".data).take 13 = "Budget Review".data := by decide
  unfold notesTagMatch
  rw [hno, hsplit]
  simp [tagBody_of_trimmed rest hdrop hnl, htake]

lemma append_ne_empty_of_left (pre rest : String) (hpre : pre.data ≠ []) :
    pre ++ rest ≠ "" := by
  intro h
  have h3 := congrArg String.data h
  rw [String.data_append] at h3
  rcases List.append_eq_nil.mp h3 with ⟨h4, _⟩
  exact hpre h4

lemma parseNotesColumn_tag_auto (rest : String) (htrim : strTrim rest = rest)
    (hnl : rest.data.all (fun c => c ≠ '\n' ∧ c ≠ '\r') = true) :
    parseNotesColumn ("Auto-Approve: " ++ rest) =
      { financeRoute := "Auto-Approve", description := rest } := by
  have hdata : trimData rest.data = rest.data := congrArg String.data htrim
  have hdrop := dropWhile_of_trimData _ hdata
  have hne : ("Auto-Approve: " ++ rest) ≠ "" :=
    append_ne_empty_of_left _ _ (by decide)
  have hdesc : strTrim (String.mk (' ' :: rest.data)) = rest := by
    unfold strTrim
    rw [trimData_cons_ws ' ' rest.data (by decide), hdata]
  unfold parseNotesColumn
  rw [if_neg hne, notesTagMatch_auto rest hdrop hnl]
  simp [hdesc, strMk_data]

lemma parseNotesColumn_tag_budget (rest : String) (htrim : strTrim rest = rest)
    (hnl : rest.data.all (fun c => c ≠ '\n' ∧ c ≠ '\r') = true) :
    parseNotesColumn ("Budget Review: " ++ rest) =
      { financeRoute := "Budget Review", description := rest } := by
  have hdata : trimData rest.data = rest.data := congrArg String.data htrim
  have hdrop := dropWhile_of_trimData _ hdata
  have hne : ("Budget Review: " ++ rest) ≠ "" :=
    append_ne_empty_of_left _ _ (by decide)
  have hdesc : strTrim (String.mk (' ' :: rest.data)) = rest := by
    unfold strTrim
    rw [trimData_cons_ws ' ' rest.data (by decide), hdata]
  unfold parseNotesColumn
  rw [if_neg hne, notesTagMatch_budget rest hdrop hnl]
  simp [hdesc, strMk_data]

lemma parseNotesColumn_default (notes : String) (hm : notesTagMatch notes.data = none) :
    parseNotesColumn notes =
      { financeRoute := "Sunday Meeting", description := strTrim notes } := by
  unfold parseNotesColumn
  by_cases hne : notes = ""
  · subst hne
    rw [if_pos rfl]
    rfl
  · rw [if_neg hne, hm]

lemma filterMap_pres_length (t : RequestType) : ∀ l : List SpreadsheetRow,
    (l.filterMap (fun row => rowToPresentationRequest row t)).length =
      (l.filter (fun r => Option.isSome r.status)).length := by
  intro l
  induction l with
  | nil => rfl
  | cons row rest ih =>
    rw [List.filterMap_cons, List.filter_cons]
    rcases hst : row.status with _ | st
    · have hnone : rowToPresentationRequest row t = none := by
        unfold rowToPresentationRequest
        rw [hst]
      rw [hnone]
      simp [ih]
    · have hsome : ∃ req, rowToPresentationRequest row t = some req := by
        unfold rowToPresentationRequest
        rw [hst]
        exact ⟨_, rfl⟩
      rcases hsome with ⟨req, hr⟩
      rw [hr]
      simp [ih]

/-- **C8**.  Presentation-row derivation: `getWeekPresentationRequests`
excludes exactly the rows whose decision status is unset (a row maps to
`none` iff its status is `none`, and the produced list's length is the
number of status-bearing rows); every included row takes its routing class
and description from `parseNotesColumn` of its note; a note of the form
`<Tag>: <rest>` for a known routing tag yields route `<Tag>` and
description `<rest>`; any note not matching the tag pattern yields the
default route `Sunday Meeting` with the (trimmed) note as description. -/
theorem C8_presentation_rows :
    (∀ (row : SpreadsheetRow) (t : RequestType),
        rowToPresentationRequest row t = none ↔ row.status = none) ∧
    (∀ week : ParsedWeek,
        (getWeekPresentationRequests week).length =
          ((week.afrRequests ++ week.reallocationRequests).filter
            (fun r => Option.isSome r.status)).length) ∧
    (∀ (row : SpreadsheetRow) (t : RequestType) (st : RowStatus),
        row.status = some st →
        ((rowToPresentationRequest row t).map PresentationRequest.financeRoute =
            some (parseNotesColumn row.notes).financeRoute ∧
         (rowToPresentationRequest row t).map PresentationRequest.description =
            some (parseNotesColumn row.notes).description)) ∧
    (∀ rest : String, strTrim rest = rest →
        rest.data.all (fun c => c ≠ '\n' ∧ c ≠ '\r') = true →
        parseNotesColumn ("Auto-Approve: " ++ rest) =
          { financeRoute := "Auto-Approve", description := rest } ∧
        parseNotesColumn ("Budget Review: " ++ rest) =
          { financeRoute := "Budget Review", description := rest }) ∧
    (∀ notes : String, notesTagMatch notes.data = none →
        parseNotesColumn notes =
          { financeRoute := "Sunday Meeting", description := strTrim notes }) := by
  refine ⟨?_, ?_, ?_, ?_, ?_⟩
  · intro row t
    unfold rowToPresentationRequest
    rcases hst : row.status with _ | st
    · simp
    · simp
  · intro week
    unfold getWeekPresentationRequests
    rw [List.length_append, filterMap_pres_length, filterMap_pres_length,
      List.filter_append, List.length_append]
  · intro row t st hst
    constructor <;> simp [rowToPresentationRequest, hst]
  · intro rest htrim hnl
    exact ⟨parseNotesColumn_tag_auto rest htrim hnl,
      parseNotesColumn_tag_budget rest htrim hnl⟩
  · intro notes hm
    exact parseNotesColumn_default notes hm

theorem C8_presentation_rows_witness :
    strTrim "Pizza party" = "Pizza party" ∧
    parseNotesColumn "Auto-Approve: Pizza party" =
      { financeRoute := "Auto-Approve", description := "Pizza party" } :=
  ⟨by decide, (C8_presentation_rows.2.2.2.1 "Pizza party" (by decide) (by decide)).1⟩

/-! ## Week ordering (C9) -/

lemma lexLt_asymm : ∀ (a b : List Char), lexLt a b = true → lexLt b a = false := by
  intro a
  induction a with
  | nil =>
    intro b h
    cases b with
    | nil => simp [lexLt] at h
    | cons d ds => rfl
  | cons c cs ih =>
    intro b h
    cases b with
    | nil => simp [lexLt] at h
    | cons d ds =>
      simp only [lexLt] at h ⊢
      by_cases h1 : c.toNat < d.toNat
      · rw [if_neg (by omega : ¬ d.toNat < c.toNat), if_pos h1]
      · by_cases h2 : d.toNat < c.toNat
        · rw [if_neg h1, if_pos h2] at h
          exact absurd h (by simp)
        · rw [if_neg h1, if_neg h2] at h
          rw [if_neg h2, if_neg h1]
          exact ih ds h

lemma lexLt_trans : ∀ (a b c : List Char),
    lexLt a b = true → lexLt b c = true → lexLt a c = true := by
  intro a
  induction a with
  | nil =>
    intro b c h1 h2
    cases b with
    | nil => simp [lexLt] at h1
    | cons d ds =>
      cases c with
      | nil => simp [lexLt] at h2
      | cons e es => rfl
  | cons x xs ih =>
    intro b c h1 h2
    cases b with
    | nil => simp [lexLt] at h1
    | cons y ys =>
      cases c with
      | nil => simp [lexLt] at h2
      | cons z zs =>
        simp only [lexLt] at h1 h2 ⊢
        by_cases hxy : x.toNat < y.toNat
        · by_cases hyz : y.toNat < z.toNat
          · rw [if_pos (by omega : x.toNat < z.toNat)]
          · by_cases hzy : z.toNat < y.toNat
            · rw [if_neg hyz, if_pos hzy] at h2
              exact absurd h2 (by simp)
            · rw [if_pos (by omega : x.toNat < z.toNat)]
        · by_cases hyx : y.toNat < x.toNat
          · rw [if_neg hxy, if_pos hyx] at h1
            exact absurd h1 (by simp)
          · rw [if_neg hxy, if_neg hyx] at h1
            by_cases hyz : y.toNat < z.toNat
            · rw [if_pos (by omega : x.toNat < z.toNat)]
            · by_cases hzy : z.toNat < y.toNat
              · rw [if_neg hyz, if_pos hzy] at h2
                exact absurd h2 (by simp)
              · rw [if_neg hyz, if_neg hzy] at h2
                rw [if_neg (by omega : ¬ x.toNat < z.toNat),
                  if_neg (by omega : ¬ z.toNat < x.toNat)]
                exact ih ys zs h1 h2

lemma lexLt_false_of (v w x : List Char) (hvw : lexLt v w = true)
    (hvx : lexLt v x = false) : lexLt w x = false := by
  cases hwx : lexLt w x with
  | false => rfl
  | true =>
    have h := lexLt_trans v w x hvw hwx
    rw [hvx] at h
    exact absurd h (by simp)

lemma insertWeekDesc_mem (w : ParsedWeek) : ∀ (l : List ParsedWeek) (x : ParsedWeek),
    x ∈ insertWeekDesc w l → x = w ∨ x ∈ l := by
  intro l
  induction l with
  | nil =>
    intro x hx
    rcases List.mem_singleton.mp hx with rfl
    exact Or.inl rfl
  | cons v vs ih =>
    intro x hx
    unfold insertWeekDesc at hx
    by_cases hb : lexLt v.dateISO.data w.dateISO.data = true
    · rw [if_pos hb] at hx
      rcases List.mem_cons.mp hx with rfl | hx2
      · exact Or.inl rfl
      · exact Or.inr hx2
    · rw [if_neg hb] at hx
      rcases List.mem_cons.mp hx with rfl | hx2
      · exact Or.inr (List.mem_cons_self _ _)
      · rcases ih x hx2 with h | h
        · exact Or.inl h
        · exact Or.inr (List.mem_cons_of_mem _ h)

lemma insertWeekDesc_pairwise (w : ParsedWeek) :
    ∀ l : List ParsedWeek,
      l.Pairwise (fun a b => lexLt a.dateISO.data b.dateISO.data = false) →
      (insertWeekDesc w l).Pairwise
        (fun a b => lexLt a.dateISO.data b.dateISO.data = false) := by
  intro l
  induction l with
  | nil =>
    intro _
    simp [insertWeekDesc]
  | cons v vs ih =>
    intro h
    rcases List.pairwise_cons.mp h with ⟨hhead, htail⟩
    unfold insertWeekDesc
    by_cases hb : lexLt v.dateISO.data w.dateISO.data = true
    · rw [if_pos hb]
      refine List.pairwise_cons.mpr ⟨?_, h⟩
      intro x hx
      rcases List.mem_cons.mp hx with rfl | hx2
      · exact lexLt_asymm _ _ hb
      · exact lexLt_false_of _ _ _ hb (hhead x hx2)
    · rw [if_neg hb]
      rw [Bool.not_eq_true] at hb
      refine List.pairwise_cons.mpr ⟨?_, ih htail⟩
      intro x hx
      rcases insertWeekDesc_mem w vs x hx with rfl | hx2
      · exact hb
      · exact hhead x hx2

lemma sortWeeksDesc_go_pairwise : ∀ (l acc : List ParsedWeek),
    acc.Pairwise (fun a b => lexLt a.dateISO.data b.dateISO.data = false) →
    (l.foldl (fun acc w => insertWeekDesc w acc) acc).Pairwise
      (fun a b => lexLt a.dateISO.data b.dateISO.data = false) := by
  intro l
  induction l with
  | nil => intro acc h; exact h
  | cons w rest ih =>
    intro acc h
    exact ih _ (insertWeekDesc_pairwise w acc h)

lemma sortWeeksDesc_pairwise (l : List ParsedWeek) :
    (sortWeeksDesc l).Pairwise
      (fun a b => lexLt a.dateISO.data b.dateISO.data = false) :=
  sortWeeksDesc_go_pairwise l [] List.Pairwise.nil

def c9Master : Workbook :=
  generateMasterSpreadsheet { semesterName := "Fall 2026", startingBudget := 500 }

def c9WbA : Workbook :=
  mergeSpreadsheet (some c9Master) [plainAFRRequest "Chess" 40 "901"]
    { meetingDate := some ⟨2, 1, 2026⟩, initialBudgetCell := none }

/-- The ledger after merging a batch dated 2/1/26 and then one dated 2/8/26. -/
def c9WbB : Workbook :=
  mergeSpreadsheet (some c9WbA) [plainAFRRequest "Robotics" 60 "902"]
    { meetingDate := some ⟨2, 8, 2026⟩, initialBudgetCell := none }

/-- **C9**.  Sections come back most-recent-first: for every workbook the
weeks returned by `parseWeeklySpreadsheet` are pairwise descending in
`dateISO` (no later week is lexicographically greater than an earlier one,
`lexLt` being the code-unit order `localeCompare` induces on ISO dates);
and concretely, merging batches dated 2026-02-01 then 2026-02-08 and
reading back yields the sections in the order
`["2026-02-08", "2026-02-01"]`. -/
theorem C9_week_ordering :
    (∀ (wb : Workbook) (cy : Nat),
        ((parseWeeklySpreadsheet wb cy).weeks).Pairwise
          (fun a b => lexLt a.dateISO.data b.dateISO.data = false)) ∧
    ((parseWeeklySpreadsheet c9WbB 2026).weeks.map ParsedWeek.dateISO =
        ["2026-02-08", "2026-02-01"]) ∧
    ((parseWeeklySpreadsheet c9WbB 2026).weeks.map ParsedWeek.date =
        ["2/8/26", "2/1/26"]) := by
  refine ⟨?_, by decide, by decide⟩
  intro wb cy
  rcases hai : afrSheetIdx wb with _ | ai
  · simp only [parseWeeklySpreadsheet, hai]
    exact List.Pairwise.nil
  · simp only [parseWeeklySpreadsheet, hai]
    split
    · exact List.Pairwise.nil
    · exact sortWeeksDesc_pairwise _
